import Mathlib

/-!
# Weather-Forecasting: a shallow embedding of `src/script.js`

The class `WeatherApp` of `src/script.js` is embedded as functions on an
explicit application state `App` (the DOM elements the class holds).  Values
that come out of `response.json()` are JavaScript values (`JSVal`); property
reads that throw a `TypeError` in JavaScript return `Except.error` here.
Conversions that throw a `TypeError` (`ToString`, `ToNumber` and
`ToPropertyKey` of an object that cannot be converted to a primitive) return
`Except.error` as well.  Functions of the browser that the script calls but
does not define (number formatting, dates, `encodeURIComponent`) are the
fields of `Host`.
-/

namespace WeatherApp

/-! ## JavaScript values -/

/-- A JavaScript value: what `JSON.parse` can produce, `undefined`, and a
reference to a built-in member of `Object.prototype` (the only non-JSON values
the script can get hold of, through a computed property read on an object
literal).  An object is given by its own properties in creation order; if a
key occurs twice, the first entry is the property. -/
inductive JSVal where
  | undefined : JSVal
  | null : JSVal
  | bool (b : Bool) : JSVal
  | num (q : ℚ) : JSVal
  | str (s : String) : JSVal
  | arr (items : List JSVal) : JSVal
  | obj (props : List (String × JSVal)) : JSVal
  | builtin (name : String) : JSVal

/-- A thrown JavaScript error; only its `message` is ever read by the script. -/
structure JSError where
  message : String

/-- Browser functions used by the script.  The functions that take a value
are applied only to values that convert to a primitive (`JSVal.convertible`). -/
structure Host where
  /-- The global `encodeURIComponent` on a well-formed string. -/
  encodeURIComponent : String → String
  /-- `Number::toString`. -/
  numberToString : ℚ → String
  /-- `ToString` of an array, an object or a built-in function that converts
  to a primitive. -/
  objectToString : JSVal → String
  /-- The message of the `TypeError` raised when an object cannot be converted
  to a primitive value. -/
  conversionErrorMessage : String
  /-- The message of the `TypeError` raised by reading the named property of
  `undefined` or `null`, or by calling the named property when it is not a function. -/
  typeErrorMessage : String → String
  /-- A property of a built-in member of `Object.prototype`. -/
  builtinProp : String → String → JSVal
  /-- The map `dt ↦ new Date(dt * 1000).toDateString()`. -/
  toDateString : JSVal → String
  /-- The map `dt ↦ new Date(dt * 1000).toLocaleDateString('en-US', { weekday: 'short' })`. -/
  weekdayShort : JSVal → String
  /-- The map `dt ↦ new Date(dt * 1000).toLocaleDateString('en-US', { month: 'short', day: 'numeric' })`. -/
  monthDay : JSVal → String
  /-- The text `new Date().toLocaleDateString('en-US', { weekday: 'long', ... })`. -/
  today : String
  /-- The map `v ↦ String(Math.round(v))`. -/
  roundText : JSVal → String
  /-- The map `v ↦ (v / 1000).toFixed(1)`. -/
  kmFixed1 : JSVal → String

/-- `ToBoolean`. -/
def JSVal.truthy : JSVal → Bool
  | .undefined => false
  | .null => false
  | .bool b => b
  | .num q => decide (q ≠ 0)
  | .str s => decide (s ≠ "")
  | .arr _ => true
  | .obj _ => true
  | .builtin _ => true

mutual
/-- Whether `ToPrimitive` succeeds on a value.  An object from `JSON.parse`
converts through the inherited `Object.prototype.toString`, unless an own
property named `toString` shadows it: that property holds a JSON value, which
is not callable, and `valueOf` returns the object itself, so the conversion
throws.  An array converts through `join`, which converts each element.  The
outcome is the same for the hints `string` and `number`. -/
def JSVal.convertible : JSVal → Bool
  | .obj props => !(props.any fun p => p.1 == "toString")
  | .arr items => convertibleAll items
  | _ => true
/-- Whether every element of an array converts. -/
def convertibleAll : List JSVal → Bool
  | [] => true
  | v :: vs => v.convertible && convertibleAll vs
end

/-- The text `ToString` gives for a value that converts to a primitive. -/
def toText (H : Host) : JSVal → String
  | .undefined => "undefined"
  | .null => "null"
  | .bool true => "true"
  | .bool false => "false"
  | .num q => H.numberToString q
  | .str s => s
  | .arr items => H.objectToString (.arr items)
  | .obj props => H.objectToString (.obj props)
  | .builtin name => H.objectToString (.builtin name)

/-- The conversion to a primitive that `ToNumber` and `ToString` start with:
it throws a `TypeError` on a value that does not convert, and otherwise the
value stands for its primitive. -/
def coerce (H : Host) (v : JSVal) : Except JSError JSVal :=
  if v.convertible then .ok v else .error ⟨H.conversionErrorMessage⟩

/-- `ToString`, as applied by template literals, computed property keys and
the setters of `textContent` and `className`. -/
def toStr (H : Host) (v : JSVal) : Except JSError String :=
  if v.convertible then .ok (toText H v) else .error ⟨H.conversionErrorMessage⟩

/-- The expression `a || b` once both operands are evaluated. -/
def JSVal.orElse (a b : JSVal) : JSVal :=
  if a.truthy then a else b

/-- The names of the properties every ordinary object inherits from
`Object.prototype`.  Each of them holds a function or, for `__proto__`, the
prototype object itself, hence a truthy value. -/
def objectPrototypeNames : List String :=
  ["constructor", "hasOwnProperty", "isPrototypeOf", "propertyIsEnumerable",
   "toLocaleString", "toString", "valueOf", "__proto__",
   "__defineGetter__", "__defineSetter__", "__lookupGetter__", "__lookupSetter__"]

/-- The value found on the prototype chain of an ordinary object for a key that
is not an own property. -/
def inherited (k : String) : JSVal :=
  if k ∈ objectPrototypeNames then .builtin k else .undefined

/-- The read `o[k]` on an ordinary object with own properties `props`. -/
def lookupProp (props : List (String × JSVal)) (k : String) : JSVal :=
  match props.lookup k with
  | some v => v
  | none => inherited k

/-- The number of UTF-16 code units of a string (its JavaScript `length`). -/
def utf16Length (s : String) : Nat :=
  (s.data.map fun c => if c.val.toNat < 65536 then 1 else 2).sum

/-- A canonical array index: the decimal numeral, without a leading zero, of a
natural number below `2^32 - 1`. -/
def arrayIndex (k : String) : Option Nat :=
  match k.data with
  | [] => none
  | c :: cs =>
      if (c :: cs).all Char.isDigit && (c != '0' || cs.isEmpty) then
        let n := (c :: cs).foldl (fun a d => 10 * a + (d.toNat - 48)) 0
        if n < 4294967295 then some n else none
      else none

/-- The property read `v.k` (or `v[k]` for an index) for the property names the
script reads on response data: `length`, `0`, and field names none of which is
a member of `Array.prototype`, `String.prototype`, `Number.prototype` or
`Boolean.prototype`.  Reading a property of `undefined` or `null` throws. -/
def JSVal.get (H : Host) (v : JSVal) (k : String) : Except JSError JSVal :=
  match v with
  | .undefined => .error ⟨H.typeErrorMessage k⟩
  | .null => .error ⟨H.typeErrorMessage k⟩
  | .obj props => .ok (lookupProp props k)
  | .arr items =>
      if k = "length" then .ok (.num items.length)
      else match arrayIndex k with
        | some i => .ok (items.getD i .undefined)
        | none => .ok (inherited k)
  | .str s =>
      if k = "length" then .ok (.num (utf16Length s))
      else match arrayIndex k with
        | some i => .ok (match s.data.get? i with
            | some c => .str (String.singleton c)
            | none => .undefined)
        | none => .ok (inherited k)
  | .bool _ => .ok (inherited k)
  | .num _ => .ok (inherited k)
  | .builtin name => .ok (H.builtinProp name k)

/-! ## The application state -/

/-- One child of `forecastList`: the five texts interpolated into the
`forecast-item` template. -/
structure ForecastItem where
  dayName : String
  monthDay : String
  iconClass : String
  temp : String
  description : String

/-- A request issued through `fetch`, by endpoint. -/
inductive Request where
  | probe : Request
  | geocode (city : String) : Request
  | weather (lat lon : JSVal) : Request
  | forecast (lat lon : JSVal) : Request

/-- The elements held by a `WeatherApp` (`initializeElements`), with the
properties the script writes: `style.display` of the four regions, the
children of `forecastList`, `className` of the icon and `textContent` of the
text elements (the value assigned, for `cityName` and `country`).  `requests`
and `errors` are a history: the requests passed to
`fetch` and the messages passed to `showError`, oldest first. -/
structure App where
  cityInput : String
  loading : String
  weatherCard : String
  errorMessage : String
  forecastContainer : String
  forecastList : List ForecastItem
  cityName : JSVal
  country : JSVal
  date : String
  weatherIcon : JSVal
  temperature : String
  description : JSVal
  visibility : String
  humidity : String
  windSpeed : String
  feelsLike : String
  pressure : String
  uvIndex : String
  errorText : String
  requests : List Request
  errors : List String

/-- The method `showLoading`. -/
def showLoading (s : App) : App :=
  { s with loading := "block", weatherCard := "none", errorMessage := "none",
           forecastContainer := "none" }

/-- The method `showWeatherCard`. -/
def showWeatherCard (s : App) : App :=
  { s with loading := "none", weatherCard := "block", errorMessage := "none" }

/-- The method `showError`. -/
def showError (message : String) (s : App) : App :=
  { s with loading := "none", weatherCard := "none", errorMessage := "block",
           forecastContainer := "none", errorText := message,
           errors := s.errors ++ [message] }

/-! ## Icons -/

/-- The object literal `iconMap` of `getWeatherIconClass`. -/
def iconMap : List (String × JSVal) :=
  [("01d", .str "fas fa-sun"), ("01n", .str "fas fa-moon"),
   ("02d", .str "fas fa-cloud-sun"), ("02n", .str "fas fa-cloud-moon"),
   ("03d", .str "fas fa-cloud"), ("03n", .str "fas fa-cloud"),
   ("04d", .str "fas fa-cloud"), ("04n", .str "fas fa-cloud"),
   ("09d", .str "fas fa-cloud-rain"), ("09n", .str "fas fa-cloud-rain"),
   ("10d", .str "fas fa-cloud-sun-rain"), ("10n", .str "fas fa-cloud-moon-rain"),
   ("11d", .str "fas fa-bolt"), ("11n", .str "fas fa-bolt"),
   ("13d", .str "fas fa-snowflake"), ("13n", .str "fas fa-snowflake"),
   ("50d", .str "fas fa-smog"), ("50n", .str "fas fa-smog")]

/-- The method `getWeatherIconClass`: `iconMap[iconCode] || 'fas fa-cloud'`.
The computed read converts `iconCode` to a property key first. -/
def getWeatherIconClass (H : Host) (iconCode : JSVal) : Except JSError JSVal :=
  match toStr H iconCode with
  | .error e => .error e
  | .ok key => .ok ((lookupProp iconMap key).orElse (.str "fas fa-cloud"))

/-! ## Rendering -/

/-- The chained read `v.k₁.k₂...`, left to right. -/
def JSVal.path (H : Host) (v : JSVal) : List String → Except JSError JSVal
  | [] => .ok v
  | k :: ks =>
      match v.get H k with
      | .ok w => JSVal.path H w ks
      | .error e => .error e

/-- A straight-line block of assignments to properties of DOM elements.  The
right-hand sides read response data only, so each is given evaluated: either
the update it performs or the error it throws.  The block runs in order and
stops at the first throw, keeping the updates already made. -/
def runAssignments : List (Except JSError (App → App)) → App → Except JSError Unit × App
  | [], s => (.ok (), s)
  | .error e :: _, s => (.error e, s)
  | .ok f :: rest, s => runAssignments rest (f s)

/-- The expression `name || data.k₁.k₂...`: the right operand is read only when
`name` is falsy. -/
def orRead (H : Host) (name data : JSVal) (ks : List String) : Except JSError JSVal :=
  if name.truthy then .ok name else data.path H ks

/-- A read followed by a conversion or a call that may throw. -/
def andThen {α β : Type} (x : Except JSError α) (f : α → Except JSError β) :
    Except JSError β :=
  match x with
  | .error e => .error e
  | .ok v => f v

/-- The assignments of `displayWeather`, in source order, before
`showWeatherCard`.  The setters of `textContent` and `className` convert the
value to a string, `Math.round` and the division convert it to a number, and
a template literal converts it to a string. -/
def weatherAssignments (H : Host) (data cityName countryName : JSVal) :
    List (Except JSError (App → App)) :=
  [ (andThen (orRead H cityName data ["name"]) (coerce H)).map
      fun v s => { s with cityName := v },
    (andThen (orRead H countryName data ["sys", "country"]) (coerce H)).map
      fun v s => { s with country := v },
    .ok fun s => { s with date := H.today },
    (andThen (andThen (data.path H ["weather", "0", "icon"]) (getWeatherIconClass H))
        (coerce H)).map
      fun v s => { s with weatherIcon := v },
    (andThen (data.path H ["main", "temp"]) (coerce H)).map
      fun v s => { s with temperature := H.roundText v },
    (andThen (data.path H ["weather", "0", "description"]) (coerce H)).map
      fun v s => { s with description := v },
    (andThen (data.path H ["visibility"]) (coerce H)).map
      fun v s => { s with visibility := H.kmFixed1 v ++ " km" },
    (andThen (data.path H ["main", "humidity"]) (toStr H)).map
      fun t s => { s with humidity := t ++ "%" },
    (andThen (data.path H ["wind", "speed"]) (toStr H)).map
      fun t s => { s with windSpeed := t ++ " m/s" },
    (andThen (data.path H ["main", "feels_like"]) (coerce H)).map
      fun v s => { s with feelsLike := H.roundText v ++ "°C" },
    (andThen (data.path H ["main", "pressure"]) (toStr H)).map
      fun t s => { s with pressure := t ++ " hPa" },
    .ok fun s => { s with uvIndex := "N/A" } ]

/-- The method `displayWeather`. -/
def displayWeather (H : Host) (data cityName countryName : JSVal) (s : App) :
    Except JSError Unit × App :=
  match runAssignments (weatherAssignments H data cityName countryName) s with
  | (.ok _, s') => (.ok (), showWeatherCard s')
  | (.error e, s') => (.error e, s')

/-- The assignment `o[k] = v` on an ordinary object: an existing own property
keeps its place, a new one is created last. -/
def setProp (props : List (String × JSVal)) (k : String) (v : JSVal) :
    List (String × JSVal) :=
  if props.any (fun p => p.1 == k) then
    props.map fun p => if p.1 == k then (k, v) else p
  else props ++ [(k, v)]

/-- The call `Object.values(o)` on an ordinary object with own properties
`props` in creation order: properties whose key is an array index come first,
in ascending numeric order, then the others in creation order. -/
def objectValues (props : List (String × JSVal)) : List JSVal :=
  ((props.filterMap fun p => (arrayIndex p.1).map fun n => (n, p.2)).insertionSort
      (fun a b => a.1 ≤ b.1)).map (fun p => p.2)
    ++ (props.filter fun p => (arrayIndex p.1).isNone).map (fun p => p.2)

/-- The callback of the first `forEach` of `displayForecast`, on the object
`dailyForecasts` built so far.  The product `item.dt * 1000` converts `item.dt`
to a number. -/
def groupStep (H : Host) (daily : List (String × JSVal)) (item : JSVal) :
    Except JSError (List (String × JSVal)) :=
  match andThen (item.get H "dt") (coerce H) with
  | .error e => .error e
  | .ok dt =>
      if (lookupProp daily (H.toDateString dt)).truthy then .ok daily
      else .ok (setProp daily (H.toDateString dt) item)

/-- The first `forEach` of `displayForecast` over the items of `data.list`. -/
def groupByDay (H : Host) : List (String × JSVal) → List JSVal →
    Except JSError (List (String × JSVal))
  | daily, [] => .ok daily
  | daily, item :: rest =>
      match groupStep H daily item with
      | .error e => .error e
      | .ok daily' => groupByDay H daily' rest

/-- The local `forecastArray` of `displayForecast`:
`Object.values(dailyForecasts).slice(0, 5)`.  Calling `forEach` on a
`data.list` that is not an array throws. -/
def forecastArray (H : Host) (data : JSVal) : Except JSError (List JSVal) :=
  match data.get H "list" with
  | .error e => .error e
  | .ok (.arr items) =>
      match groupByDay H [] items with
      | .error e => .error e
      | .ok daily => .ok ((objectValues daily).take 5)
  | .ok _ => .error ⟨H.typeErrorMessage "forEach"⟩

/-- The element built by the callback of the second `forEach` of
`displayForecast`: the date, the icon class, and the template literal, which
converts the class, rounds `item.main.temp` and converts the description. -/
def forecastElement (H : Host) (item : JSVal) : Except JSError ForecastItem :=
  match andThen (item.get H "dt") (coerce H) with
  | .error e => .error e
  | .ok dt =>
  match andThen (andThen (item.path H ["weather", "0", "icon"]) (getWeatherIconClass H))
      (toStr H) with
  | .error e => .error e
  | .ok iconClass =>
  match andThen (item.path H ["main", "temp"]) (coerce H) with
  | .error e => .error e
  | .ok temp =>
  match andThen (item.path H ["weather", "0", "description"]) (toStr H) with
  | .error e => .error e
  | .ok desc =>
    .ok { dayName := H.weekdayShort dt
          monthDay := H.monthDay dt
          iconClass := iconClass
          temp := H.roundText temp ++ "°C"
          description := desc }

/-- The call `forecastList.appendChild(forecastItem)`. -/
def appendChild (e : ForecastItem) (s : App) : App :=
  { s with forecastList := s.forecastList ++ [e] }

/-- The method `displayForecast`. -/
def displayForecast (H : Host) (data : JSVal) (s : App) : Except JSError Unit × App :=
  match forecastArray H data with
  | .error e => (.error e, s)
  | .ok items =>
      match runAssignments (items.map fun item => (forecastElement H item).map appendChild)
          { s with forecastList := [] } with
      | (.ok _, s') => (.ok (), { s' with forecastContainer := "block" })
      | (.error e, s') => (.error e, s')

/-! ## The network -/

/-- The constructor's `this.apiKey`. -/
def apiKey : String := "API-KEY"

/-- The constructor's `this.baseURL`. -/
def baseURL : String := "https://api.openweathermap.org/data/2.5"

/-- The constructor's `this.geocodingURL`. -/
def geocodingURL : String := "https://api.openweathermap.org/geo/1.0"

/-- The URL the script builds for a request; the template literal converts the
coordinates to strings. -/
def Request.url (H : Host) : Request → Except JSError String
  | .probe => .ok (baseURL ++ "/weather?q=London&appid=" ++ apiKey ++ "&units=metric")
  | .geocode city =>
      .ok (geocodingURL ++ "/direct?q=" ++ H.encodeURIComponent city ++ "&limit=1&appid="
        ++ apiKey)
  | .weather lat lon =>
      andThen (toStr H lat) fun a => andThen (toStr H lon) fun b =>
        .ok (baseURL ++ "/weather?lat=" ++ a ++ "&lon=" ++ b ++ "&appid=" ++ apiKey
          ++ "&units=metric")
  | .forecast lat lon =>
      andThen (toStr H lat) fun a => andThen (toStr H lon) fun b =>
        .ok (baseURL ++ "/forecast?lat=" ++ a ++ "&lon=" ++ b ++ "&appid=" ++ apiKey
          ++ "&units=metric")

/-- A `Response`: its `status` and the outcome of `response.json()`, which
rejects when the body is not JSON. -/
structure Response where
  status : Nat
  json : Except JSError JSVal

/-- The property `response.ok`: the status is in the range 200 to 299. -/
def Response.ok (r : Response) : Bool :=
  decide (200 ≤ r.status ∧ r.status ≤ 299)

/-- The outcome of `await fetch(url)`: the promise rejects (transport failure)
or resolves to a response. -/
inductive FetchResult where
  | rejected (e : JSError) : FetchResult
  | response (r : Response) : FetchResult

/-- The remote service: what each request is answered with. -/
abbrev Net := Request → FetchResult

/-- The call `fetch(url)`, recorded in the history. -/
def recordFetch (q : Request) (s : App) : App :=
  { s with requests := s.requests ++ [q] }

/-- The expression `await response.json().catch(() => ({}))`. -/
def jsonOrEmpty (r : Response) : JSVal :=
  match r.json with
  | .ok d => d
  | .error _ => .obj []

/-- The error thrown on a response that is not ok:
`new Error(prefix + response.status + ' - ' + (errorData.message || 'Unknown error'))`;
reading `errorData.message` throws instead when the body is `null`, and so
does the template literal when the message does not convert to a string. -/
def apiError (H : Host) (label : String) (r : Response) : JSError :=
  match andThen ((jsonOrEmpty r).get H "message")
      (fun m => toStr H (m.orElse (.str "Unknown error"))) with
  | .error e => e
  | .ok text => ⟨label ++ toString r.status ++ " - " ++ text⟩

/-! ## Forecast -/

/-- The `try` block of `getForecast` from the point where `fetch` settles. -/
def forecastAttempt (H : Host) (r : FetchResult) (s : App) : Except JSError Unit × App :=
  match r with
  | .rejected e => (.error e, s)
  | .response resp =>
      if resp.ok then
        match resp.json with
        | .error e => (.error e, s)
        | .ok data => displayForecast H data s
      else (.error ⟨"Failed to fetch forecast data"⟩, s)

/-- The method `getForecast` from the point where `fetch` settles: the `try`
block, and the `catch` that hides the forecast container. -/
def forecastSettled (H : Host) (r : FetchResult) (s : App) : App :=
  match forecastAttempt H r s with
  | (.ok _, s') => s'
  | (.error _, s') => { s' with forecastContainer := "none" }

/-- The method `getForecast`.  The URL is built inside the `try` block: when
its template literal throws, no request is made and the `catch` hides the
forecast container. -/
def getForecast (H : Host) (net : Net) (lat lon : JSVal) (s : App) : App :=
  match Request.url H (.forecast lat lon) with
  | .error _ => { s with forecastContainer := "none" }
  | .ok _ => forecastSettled H (net (.forecast lat lon)) (recordFetch (.forecast lat lon) s)

/-! ## Current weather -/

/-- A parameter declared `= null`: the default replaces an `undefined` argument. -/
def defaultNull : JSVal → JSVal
  | .undefined => .null
  | v => v

/-- The `try` block of `getWeatherByCoords` from the point where `fetch`
settles up to and including `displayWeather`. -/
def weatherAttempt (H : Host) (r : FetchResult) (cityName countryName : JSVal) (s : App) :
    Except JSError Unit × App :=
  match r with
  | .rejected e => (.error e, s)
  | .response resp =>
      if resp.ok then
        match resp.json with
        | .error e => (.error e, s)
        | .ok weatherData => displayWeather H weatherData cityName countryName s
      else (.error (apiError H "Weather API Error: " resp), s)

/-- The `catch` block of `getWeatherByCoords`. -/
def weatherFailed (e : JSError) (s : App) : App :=
  showError ("Failed to fetch weather data: " ++ e.message) s

/-- The method `getWeatherByCoords`.  The URL is built inside the `try` block:
when its template literal throws, no request is made.  The call `getForecast`
never throws, so the `catch` block only receives what the URL and
`weatherAttempt` throw. -/
def getWeatherByCoords (H : Host) (net : Net) (lat lon cityName countryName : JSVal)
    (s : App) : App :=
  match Request.url H (.weather lat lon) with
  | .error e => weatherFailed e s
  | .ok _ =>
      match weatherAttempt H (net (.weather lat lon)) (defaultNull cityName)
          (defaultNull countryName) (recordFetch (.weather lat lon) s) with
      | (.ok _, s') => getForecast H net lat lon s'
      | (.error e, s') => weatherFailed e s'

/-! ## Geocoding -/

/-- The object returned by `getCityCoordinates`. -/
structure Coords where
  lat : JSVal
  lon : JSVal
  name : JSVal
  country : JSVal

/-- The comparison `v === 0`. -/
def JSVal.isZero : JSVal → Bool
  | .num q => decide (q = 0)
  | _ => false

/-- The object literal `{ lat: data[0].lat, lon: data[0].lon, name: data[0].name,
country: data[0].country }`. -/
def firstCoords (H : Host) (data : JSVal) : Except JSError Coords :=
  match data.path H ["0", "lat"] with
  | .error e => .error e
  | .ok lat =>
  match data.path H ["0", "lon"] with
  | .error e => .error e
  | .ok lon =>
  match data.path H ["0", "name"] with
  | .error e => .error e
  | .ok name =>
  match data.path H ["0", "country"] with
  | .error e => .error e
  | .ok country => .ok { lat := lat, lon := lon, name := name, country := country }

/-- The `try` block of `getCityCoordinates` from the point where `fetch`
settles: the value it returns (`none` for `null`) or the error it throws. -/
def geocodeAttempt (H : Host) (r : FetchResult) : Except JSError (Option Coords) :=
  match r with
  | .rejected e => .error e
  | .response resp =>
      if resp.ok then
        match resp.json with
        | .error e => .error e
        | .ok data =>
            match data.get H "length" with
            | .error e => .error e
            | .ok len =>
                if len.isZero then .ok none
                else match firstCoords H data with
                  | .error e => .error e
                  | .ok c => .ok (some c)
      else .error (apiError H "API Error: " resp)

/-- The method `getCityCoordinates` from the point where `fetch` settles: the
`try` block, and the `catch` that returns `null`. -/
def geocodeSettled (H : Host) (r : FetchResult) : Option Coords :=
  match geocodeAttempt H r with
  | .ok c => c
  | .error _ => none

/-- The method `getCityCoordinates`. -/
def getCityCoordinates (H : Host) (net : Net) (city : String) (s : App) : Option Coords × App :=
  (geocodeSettled H (net (.geocode city)), recordFetch (.geocode city) s)

/-- The message of `getWeatherByCity` for a city without coordinates. -/
def notFoundMessage (city : String) : String :=
  "City \"" ++ city ++ "\" not found. Please check the spelling and try again."

/-- The method `getWeatherByCity`.  Neither `getCityCoordinates` nor
`getWeatherByCoords` throws, so its `catch` block is never entered. -/
def getWeatherByCity (H : Host) (net : Net) (city : String) (s : App) : App :=
  match getCityCoordinates H net city (showLoading s) with
  | (none, s') => showError (notFoundMessage city) s'
  | (some coords, s') =>
      getWeatherByCoords H net coords.lat coords.lon coords.name coords.country s'

/-! ## Entry points -/

/-- The characters removed by `String.prototype.trim`: the `WhiteSpace` and
`LineTerminator` code points of ECMAScript. -/
def isWhiteSpace (c : Char) : Bool :=
  c.toNat ∈ [9, 10, 11, 12, 13, 32, 160, 5760, 8232, 8233, 8239, 8287, 12288, 65279]
    || (8192 ≤ c.toNat && c.toNat ≤ 8202)

/-- The method `String.prototype.trim`. -/
def trim (s : String) : String :=
  ⟨(s.data.dropWhile isWhiteSpace).rdropWhile isWhiteSpace⟩

/-- The method `searchWeather`. -/
def searchWeather (H : Host) (net : Net) (s : App) : App :=
  if trim s.cityInput = "" then showError "Please enter a city name" s
  else getWeatherByCity H net (trim s.cityInput) s

/-- The method `testApiKey`. -/
def testApiKey (net : Net) (s : App) : Bool × App :=
  (match net .probe with
    | .rejected _ => false
    | .response r =>
        if r.status = 401 then false
        else if r.status = 403 then false
        else if r.status = 429 then false
        else r.ok,
   recordFetch .probe s)

/-- The message of `loadDefaultWeather` when the key test fails. -/
def invalidKeyMessage : String :=
  "API key is invalid or not activated. Please check your OpenWeather API key."

/-- The method `loadDefaultWeather`. -/
def loadDefaultWeather (H : Host) (net : Net) (s : App) : App :=
  match testApiKey net s with
  | (false, s') => showError invalidKeyMessage s'
  | (true, s') => getWeatherByCity H net "London" s'

/-- The outcome of `navigator.geolocation.getCurrentPosition`: the success
callback with `position.coords`, or the error callback with `error.code`
(`PERMISSION_DENIED` is 1, `POSITION_UNAVAILABLE` is 2, `TIMEOUT` is 3). -/
inductive PositionResult where
  | position (latitude longitude : JSVal) : PositionResult
  | error (code : Nat) : PositionResult

/-- The `switch` of the error callback of `getCurrentLocationWeather`. -/
def locationErrorMessage (code : Nat) : String :=
  if code = 1 then "Location access denied by user"
  else if code = 2 then "Location information is unavailable"
  else if code = 3 then "Location request timed out"
  else "Unable to get your location"

/-- The method `getCurrentLocationWeather`; `geo` is `none` when
`navigator.geolocation` is missing. -/
def getCurrentLocationWeather (H : Host) (net : Net) (geo : Option PositionResult)
    (s : App) : App :=
  match geo with
  | none => showError "Geolocation is not supported by this browser" s
  | some (.position latitude longitude) =>
      getWeatherByCoords H net latitude longitude .undefined .undefined (showLoading s)
  | some (.error code) => showError (locationErrorMessage code) (showLoading s)

/-! ## Lookups in flight

Every `await fetch(...)` suspends the running method, and so does the wait
for the callback of `getCurrentPosition`; the browser resumes the lookup when
the fetch settles or the position is known, and other handlers may run in
between.  A lookup is followed here from one suspension to the next.  (The
`await response.json()` that follows a fetch writes nothing before it resumes,
so a response is delivered together with its body.) -/

/-- A lookup suspended at an `await fetch(...)` or waiting for the callback of
`getCurrentPosition`, with the variables still in use after the suspension. -/
inductive Pending where
  | position : Pending
  | geocode (city : String) : Pending
  | weather (lat lon cityName countryName : JSVal) : Pending
  | forecast (lat lon : JSVal) : Pending

/-- What the browser delivers to a suspended lookup: the outcome of its fetch
or the outcome of `getCurrentPosition`. -/
inductive Delivery where
  | fetched (r : FetchResult) : Delivery
  | located (g : PositionResult) : Delivery

/-- The two ways a lookup starts: `getWeatherByCity` for a city name, and
`getCurrentLocationWeather` in a browser that has `navigator.geolocation`. -/
inductive Lookup where
  | byName (city : String) : Lookup
  | byDevice : Lookup

/-- What a lookup waits for at its first suspension: the geocoding fetch in
`getCityCoordinates`, or the callback of `getCurrentPosition`. -/
def Lookup.initial : Lookup → Pending
  | .byName city => .geocode city
  | .byDevice => .position

/-- A lookup up to its first suspension. -/
def Lookup.start : Lookup → App → App
  | .byName city, s => recordFetch (.geocode city) (showLoading s)
  | .byDevice, s => showLoading s

/-- The method `getWeatherByCoords` up to its suspension at `await fetch(url)`,
or to its end when building the URL throws. -/
def enterCoords (H : Host) (lat lon cityName countryName : JSVal) (s : App) :
    App × Option Pending :=
  match Request.url H (.weather lat lon) with
  | .error e => (weatherFailed e s, none)
  | .ok _ =>
      (recordFetch (.weather lat lon) s,
       some (.weather lat lon (defaultNull cityName) (defaultNull countryName)))

/-- The method `getForecast` up to its suspension at `await fetch(...)`, or to
its end when building the URL throws. -/
def enterForecast (H : Host) (lat lon : JSVal) (s : App) : App × Option Pending :=
  match Request.url H (.forecast lat lon) with
  | .error _ => ({ s with forecastContainer := "none" }, none)
  | .ok _ => (recordFetch (.forecast lat lon) s, some (.forecast lat lon))

/-- A suspended lookup resumed with what it waited for, up to its next
suspension or its end.  A delivery of the other kind leaves it suspended. -/
def resume (H : Host) : Pending → Delivery → App → App × Option Pending
  | .position, .located (.position latitude longitude), s =>
      enterCoords H latitude longitude .undefined .undefined s
  | .position, .located (.error code), s => (showError (locationErrorMessage code) s, none)
  | .geocode city, .fetched r, s =>
      match geocodeSettled H r with
      | none => (showError (notFoundMessage city) s, none)
      | some c => enterCoords H c.lat c.lon c.name c.country s
  | .weather lat lon cityName countryName, .fetched r, s =>
      match weatherAttempt H r cityName countryName s with
      | (.ok _, s') => enterForecast H lat lon s'
      | (.error e, s') => (weatherFailed e s', none)
  | .forecast _ _, .fetched r, s => (forecastSettled H r s, none)
  | .position, .fetched _, s => (s, some .position)
  | .geocode city, .located _, s => (s, some (.geocode city))
  | .weather lat lon cityName countryName, .located _, s =>
      (s, some (.weather lat lon cityName countryName))
  | .forecast lat lon, .located _, s => (s, some (.forecast lat lon))

/-- The page: the application state and the lookups started so far, each
either suspended or finished (`none`). -/
structure Sys where
  app : App
  tasks : List (Option Pending)

/-- What can happen next on the page: a lookup starts, or a suspended lookup
is resumed. -/
inductive Event where
  | start (lookup : Lookup) : Event
  | deliver (id : Nat) (d : Delivery) : Event

/-- One event. -/
def Sys.step (H : Host) (σ : Sys) : Event → Sys
  | .start lookup => ⟨lookup.start σ.app, σ.tasks ++ [some lookup.initial]⟩
  | .deliver id d =>
      match σ.tasks.getD id none with
      | some p => ⟨(resume H p d σ.app).1, σ.tasks.set id (resume H p d σ.app).2⟩
      | none => σ

/-- A sequence of events. -/
def Sys.run (H : Host) (σ : Sys) (events : List Event) : Sys :=
  events.foldl (Sys.step H) σ

/-- The surroundings of one lookup: what the remote service answers and what
`getCurrentPosition` reports. -/
structure Env where
  net : Net
  location : PositionResult

/-- What a suspended lookup is resumed with in given surroundings. -/
def Env.answer (env : Env) : Pending → Delivery
  | .position => .located env.location
  | .geocode city => .fetched (env.net (.geocode city))
  | .weather lat lon _ _ => .fetched (env.net (.weather lat lon))
  | .forecast lat lon => .fetched (env.net (.forecast lat lon))

/-- Lookup `id`, if suspended, is resumed with the answer of its surroundings. -/
def settleNext (H : Host) (env : Env) (id : Nat) (σ : Sys) : Sys :=
  match σ.tasks.getD id none with
  | some p => σ.step H (.deliver id (env.answer p))
  | none => σ

/-- Lookup `id` is resumed until it ends while no other lookup makes progress
(a lookup suspends at most three times). -/
def complete (H : Host) (env : Env) (id : Nat) (σ : Sys) : Sys :=
  settleNext H env id (settleNext H env id (settleNext H env id σ))

/-- The rest of a suspended lookup when it runs without interruption. -/
def finish (H : Host) (env : Env) : Pending → App → App
  | .position, s =>
      match env.location with
      | .position latitude longitude =>
          getWeatherByCoords H env.net latitude longitude .undefined .undefined s
      | .error code => showError (locationErrorMessage code) s
  | .geocode city, s =>
      match geocodeSettled H (env.net (.geocode city)) with
      | none => showError (notFoundMessage city) s
      | some c => getWeatherByCoords H env.net c.lat c.lon c.name c.country s
  | .weather lat lon cityName countryName, s =>
      match weatherAttempt H (env.net (.weather lat lon)) cityName countryName s with
      | (.ok _, s') => getForecast H env.net lat lon s'
      | (.error e, s') => weatherFailed e s'
  | .forecast lat lon, s => forecastSettled H (env.net (.forecast lat lon)) s

/-- A lookup run alone, from its start to its end. -/
def Lookup.run (H : Host) (env : Env) : Lookup → App → App
  | .byName city, s => getWeatherByCity H env.net city s
  | .byDevice, s => getCurrentLocationWeather H env.net (some env.location) s

/-! ## What the user sees -/

/-- The contents of the weather card. -/
structure CardView where
  cityName : JSVal
  country : JSVal
  date : String
  weatherIcon : JSVal
  temperature : String
  description : JSVal
  visibility : String
  humidity : String
  windSpeed : String
  feelsLike : String
  pressure : String
  uvIndex : String

/-- The view: `style.display` of the four regions, and the contents of each of
the error message, the weather card and the forecast list unless its region
has `display` set to `none`. -/
structure View where
  loading : String
  weatherCard : String
  errorMessage : String
  forecastContainer : String
  errorText : Option String
  card : Option CardView
  forecast : Option (List ForecastItem)

/-- The contents of the weather card in a state. -/
def App.cardView (s : App) : CardView :=
  { cityName := s.cityName, country := s.country, date := s.date,
    weatherIcon := s.weatherIcon, temperature := s.temperature,
    description := s.description, visibility := s.visibility, humidity := s.humidity,
    windSpeed := s.windSpeed, feelsLike := s.feelsLike, pressure := s.pressure,
    uvIndex := s.uvIndex }

/-- The view of a state. -/
def App.view (s : App) : View :=
  { loading := s.loading, weatherCard := s.weatherCard, errorMessage := s.errorMessage,
    forecastContainer := s.forecastContainer,
    errorText := if s.errorMessage = "none" then none else some s.errorText,
    card := if s.weatherCard = "none" then none else some s.cardView,
    forecast := if s.forecastContainer = "none" then none else some s.forecastList }

/-- The three transitions between view states. -/
inductive Transition where
  | showLoading : Transition
  | showWeatherCard : Transition
  | showError (message : String) : Transition

/-- The method a transition calls. -/
def Transition.apply : Transition → App → App
  | .showLoading, s => WeatherApp.showLoading s
  | .showWeatherCard, s => WeatherApp.showWeatherCard s
  | .showError message, s => WeatherApp.showError message s

/-- A sequence of transitions, applied first to last. -/
def applyAll (ts : List Transition) (s : App) : App :=
  ts.foldl (fun s t => t.apply s) s

/-! ## Forecast items by date -/

/-- The date string `new Date(item.dt * 1000).toDateString()` of a forecast item. -/
def itemDate (H : Host) (item : JSVal) : String :=
  match item.get H "dt" with
  | .ok dt => H.toDateString dt
  | .error _ => ""

/-- A string that is neither an array index nor the name of a property
inherited from `Object.prototype`; every result of `toDateString` is one
(it starts with the name of a weekday, or is `Invalid Date`). -/
def plainKey (k : String) : Bool :=
  (arrayIndex k).isNone && !(k ∈ objectPrototypeNames)

/-- The items of a list whose key is not in `seen` and does not occur earlier
in the list. -/
def firstPerKey {α κ : Type} [DecidableEq κ] (key : α → κ) : List κ → List α → List α
  | _, [] => []
  | seen, x :: xs =>
      if key x ∈ seen then firstPerKey key seen xs
      else x :: firstPerKey key (key x :: seen) xs

/-- The part of the state that rendering a response leaves alone: the input,
the three view regions, the error text and the history. -/
def App.shell (s : App) :
    String × String × String × String × String × List Request × List String :=
  (s.cityInput, s.loading, s.weatherCard, s.errorMessage, s.errorText, s.requests, s.errors)

/-- Whether the read `v.k` succeeds with a value that converts to a primitive. -/
def fieldConverts (H : Host) (v : JSVal) (k : String) : Bool :=
  match v.get H k with
  | .ok x => x.convertible
  | .error _ => false

/-- A forecast item of the documented shape: an object whose `dt` converts to
a number, with a `weather[0]` whose `icon` and `description` convert to
strings and a `main` whose `temp` converts to a number. -/
def wellFormedItem (H : Host) : JSVal → Bool
  | .obj props =>
      (lookupProp props "dt").convertible
      && (match (lookupProp props "weather").get H "0" with
          | .ok w => fieldConverts H w "icon" && fieldConverts H w "description"
          | .error _ => false)
      && fieldConverts H (lookupProp props "main") "temp"
  | _ => false

/-! ## A sample browser and sample responses -/

/-- The weekday names of `toDateString`, Sunday first. -/
def weekdayNames : List String :=
  ["Sun", "Mon", "Tue", "Wed", "Thu", "Fri", "Sat"]

/-- The month names of `toDateString`. -/
def monthNames : List String :=
  ["Jan", "Feb", "Mar", "Apr", "May", "Jun", "Jul", "Aug", "Sep", "Oct", "Nov", "Dec"]

/-- The year, month (1 to 12) and day of the month of a day counted from
1 January 1970 in the proleptic Gregorian calendar. -/
def civilFromDays (days : Int) : Int × Nat × Nat :=
  let z := days + 719468
  let era := z / 146097
  let doe := (z - era * 146097).toNat
  let yoe := (doe - doe / 1460 + doe / 36524 - doe / 146096) / 365
  let doy := doe - (365 * yoe + yoe / 4 - yoe / 100)
  let mp := (5 * doy + 2) / 153
  let d := doy - (153 * mp + 2) / 5 + 1
  let m := if mp < 10 then mp + 3 else mp - 9
  (if m ≤ 2 then (yoe : Int) + era * 400 + 1 else (yoe : Int) + era * 400, m, d)

/-- A day of the month on two digits. -/
def pad2 (n : Nat) : String :=
  if n < 10 then "0" ++ toString n else toString n

/-- The text `toDateString` gives in a browser whose time zone is UTC, for a
time in whole seconds since the epoch in the years 1000 to 9999. -/
def utcDateString (seconds : Int) : String :=
  match civilFromDays (seconds / 86400) with
  | (y, m, d) =>
      weekdayNames.getD ((seconds / 86400 + 4) % 7).toNat "" ++ " "
        ++ monthNames.getD (m - 1) "" ++ " " ++ pad2 d ++ " " ++ toString y

/-- A browser whose time zone is UTC.  Its functions are those of a real
browser on the values the sample responses carry (integers, ASCII letters);
on other values they return a fixed text. -/
def sampleHost : Host where
  encodeURIComponent := fun city => city
  numberToString := fun q => toString q.num
  objectToString := fun _ => "[object Object]"
  typeErrorMessage := fun k => "Cannot read properties of undefined (reading '" ++ k ++ "')"
  conversionErrorMessage := "Cannot convert object to primitive value"
  builtinProp := fun _ _ => .undefined
  toDateString := fun dt =>
    match dt with
    | .num q => utcDateString q.num
    | _ => "Invalid Date"
  weekdayShort := fun dt =>
    match dt with
    | .num q => weekdayNames.getD ((q.num / 86400 + 4) % 7).toNat ""
    | _ => "Invalid Date"
  monthDay := fun dt =>
    match dt with
    | .num q =>
        monthNames.getD ((civilFromDays (q.num / 86400)).2.1 - 1) "" ++ " "
          ++ toString (civilFromDays (q.num / 86400)).2.2
    | _ => "Invalid Date"
  today := "Wednesday, November 4, 2026"
  roundText := fun v =>
    match v with
    | .num q => toString q.num
    | _ => "NaN"
  kmFixed1 := fun v =>
    match v with
    | .num q => toString (q.num / 1000) ++ "." ++ toString (q.num % 1000 / 100)
    | _ => "NaN"

/-- A page before its first lookup. -/
def blankApp : App :=
  { cityInput := "", loading := "", weatherCard := "", errorMessage := "",
    forecastContainer := "", forecastList := [], cityName := .str "", country := .str "",
    date := "", weatherIcon := .str "", temperature := "", description := .str "",
    visibility := "", humidity := "", windSpeed := "", feelsLike := "", pressure := "",
    uvIndex := "", errorText := "", requests := [], errors := [] }

/-- A response with status 200 and a JSON body. -/
def okJson (body : JSVal) : FetchResult :=
  .response { status := 200, json := .ok body }

/-- A geocoding response with one entry. -/
def geocodeBody (name country : String) : JSVal :=
  .arr [.obj [("name", .str name), ("lat", .num (5151 / 100)), ("lon", .num (-13 / 100)),
              ("country", .str country)]]

/-- A current-weather response. -/
def weatherBody (name country : String) : JSVal :=
  .obj [("weather", .arr [.obj [("id", .num 800), ("main", .str "Clear"),
                                ("description", .str "clear sky"), ("icon", .str "01d")]]),
        ("main", .obj [("temp", .num 12), ("feels_like", .num 11), ("pressure", .num 1012),
                       ("humidity", .num 81)]),
        ("visibility", .num 10000),
        ("wind", .obj [("speed", .num 4)]),
        ("sys", .obj [("country", .str country)]),
        ("name", .str name)]

/-- A service that knows no city: geocoding answers 200 with an empty array. -/
def unknownCityNet : Net
  | .geocode _ => okJson (.arr [])
  | _ => .rejected ⟨"Failed to fetch"⟩

/-- A service that refuses the API key: every request is answered 401 with the
error body of the provider. -/
def unauthorizedNet : Net := fun _ =>
  .response { status := 401,
              json := .ok (.obj [("cod", .num 401), ("message", .str "Invalid API key")]) }

/-- A service that answers every request with the sample responses for London. -/
def londonNet : Net
  | .probe => okJson (weatherBody "London" "GB")
  | .geocode _ => okJson (geocodeBody "London" "GB")
  | .weather _ _ => okJson (weatherBody "London" "GB")
  | .forecast _ _ => okJson (.obj [("list", .arr [])])

/-- A service whose weather response names the place differently from its
geocoding response, and whose forecast endpoint is down. -/
def renamingNet : Net
  | .probe => okJson (weatherBody "London" "GB")
  | .geocode _ => okJson (geocodeBody "London" "GB")
  | .weather _ _ => okJson (weatherBody "City of London" "UK")
  | .forecast _ _ => .response { status := 500, json := .error ⟨"Unexpected end of JSON input"⟩ }

/-- A service whose geocoding entry has an empty name. -/
def namelessNet : Net
  | .probe => okJson (weatherBody "London" "GB")
  | .geocode _ => okJson (geocodeBody "" "GB")
  | .weather _ _ => okJson (weatherBody "City of London" "GB")
  | .forecast _ _ => okJson (.obj [("list", .arr [])])

/-- A forecast item with time `dt`. -/
def forecastEntry (dt : Int) (icon : String) : JSVal :=
  .obj [("dt", .num dt), ("main", .obj [("temp", .num 9)]),
        ("weather", .arr [.obj [("description", .str "light rain"), ("icon", .str icon)]])]

/-- A forecast response with nine items on six days: two on 14 November 2023,
one on the 15th, three on the 16th, one on each of the 17th, 18th and 19th.
The icon tells the items of a day apart. -/
def sampleForecast : JSVal :=
  .obj [("cod", .str "200"),
        ("list", .arr [forecastEntry 1699963200 "01d", forecastEntry 1699974000 "01n",
                       forecastEntry 1700049600 "02d", forecastEntry 1700136000 "03d",
                       forecastEntry 1700146800 "09d", forecastEntry 1700157600 "10d",
                       forecastEntry 1700222400 "11d", forecastEntry 1700308800 "13d",
                       forecastEntry 1700395200 "50d"])]

/-- A forecast response with one item for Paris. -/
def parisForecast : JSVal :=
  .obj [("list", .arr [forecastEntry 1699963200 "10d"])]

/-- A service that answers every request with sample responses for Paris. -/
def parisNet : Net
  | .probe => okJson (weatherBody "London" "GB")
  | .geocode _ => okJson (geocodeBody "Paris" "FR")
  | .weather _ _ => okJson (weatherBody "Paris" "FR")
  | .forecast _ _ => okJson parisForecast

/-- A lookup of Paris starts, a lookup of London starts before any fetch of
the first has settled, the three fetches of the London lookup settle, and
then the three fetches of the Paris lookup settle. -/
def overtakenSchedule : List Event :=
  [.start (.byName "Paris"), .start (.byName "London"),
   .deliver 1 (.fetched (okJson (geocodeBody "London" "GB"))),
   .deliver 1 (.fetched (okJson (weatherBody "London" "GB"))),
   .deliver 1 (.fetched (okJson (.obj [("list", .arr [])]))),
   .deliver 0 (.fetched (okJson (geocodeBody "Paris" "FR"))),
   .deliver 0 (.fetched (okJson (weatherBody "Paris" "FR"))),
   .deliver 0 (.fetched (okJson parisForecast))]

/-- The same two lookups with their fetches interleaved: the weather of Paris
settles before the weather of London, and the forecast of Paris settles last. -/
def interleavedSchedule : List Event :=
  [.start (.byName "Paris"), .start (.byName "London"),
   .deliver 0 (.fetched (okJson (geocodeBody "Paris" "FR"))),
   .deliver 0 (.fetched (okJson (weatherBody "Paris" "FR"))),
   .deliver 1 (.fetched (okJson (geocodeBody "London" "GB"))),
   .deliver 1 (.fetched (okJson (weatherBody "London" "GB"))),
   .deliver 1 (.fetched (okJson (.obj [("list", .arr [])]))),
   .deliver 0 (.fetched (okJson parisForecast))]

/-- A forecast response whose only item has an empty `weather` array. -/
def brokenForecast : JSVal :=
  .obj [("list", .arr [.obj [("dt", .num 1699963200), ("main", .obj [("temp", .num 9)]),
                             ("weather", .arr [])]])]

/-- A service whose forecast response is `brokenForecast`. -/
def brokenForecastNet : Net
  | .probe => okJson (weatherBody "London" "GB")
  | .geocode _ => okJson (geocodeBody "London" "GB")
  | .weather _ _ => okJson (weatherBody "London" "GB")
  | .forecast _ _ => okJson brokenForecast

/-! ## View states -/

theorem applyAll_append (ts : List Transition) (t : Transition) (s : App) :
    applyAll (ts ++ [t]) s = t.apply (applyAll ts s) := by
  simp [applyAll, List.foldl_append]

/-- C10: after every non-empty sequence of `showLoading`, `showWeatherCard` and
`showError`, from any state, exactly the region of the last transition has
`display` `block` and the two others have `none`; `showLoading` and
`showError` also hide the forecast container, and `showError` sets the error
text to its argument. -/
theorem view_state_exclusive (ts : List Transition) (h : ts ≠ []) (s : App) :
    match ts.getLast h with
    | .showLoading =>
        (applyAll ts s).loading = "block" ∧ (applyAll ts s).weatherCard = "none" ∧
        (applyAll ts s).errorMessage = "none" ∧ (applyAll ts s).forecastContainer = "none"
    | .showWeatherCard =>
        (applyAll ts s).loading = "none" ∧ (applyAll ts s).weatherCard = "block" ∧
        (applyAll ts s).errorMessage = "none"
    | .showError message =>
        (applyAll ts s).loading = "none" ∧ (applyAll ts s).weatherCard = "none" ∧
        (applyAll ts s).errorMessage = "block" ∧ (applyAll ts s).forecastContainer = "none" ∧
        (applyAll ts s).errorText = message := by
  have hsplit : applyAll ts s = (ts.getLast h).apply (applyAll ts.dropLast s) := by
    conv_lhs => rw [← List.dropLast_append_getLast h]
    exact applyAll_append _ _ _
  rw [hsplit]
  cases ts.getLast h <;>
    simp [Transition.apply, showLoading, showWeatherCard, showError]

theorem view_state_exclusive_witness :
    (applyAll [.showLoading, .showError "City not found", .showWeatherCard] blankApp).loading
        = "none" ∧
    (applyAll [.showLoading, .showError "City not found", .showWeatherCard] blankApp).weatherCard
        = "block" ∧
    (applyAll [.showLoading, .showError "City not found", .showWeatherCard] blankApp).errorMessage
        = "none" :=
  view_state_exclusive [.showLoading, .showError "City not found", .showWeatherCard]
    (by simp) blankApp

/-! ## Icons -/

theorem getWeatherIconClass_known (H : Host) (code : String) (cls : JSVal)
    (h : (code, cls) ∈ iconMap) : getWeatherIconClass H (.str code) = .ok cls := by
  simp only [iconMap, List.mem_cons, Prod.mk.injEq, List.mem_singleton, List.not_mem_nil,
    or_false] at h
  rcases h with h | h | h | h | h | h | h | h | h | h | h | h | h | h | h | h | h | h <;>
    (obtain ⟨rfl, rfl⟩ := h; rfl)

theorem getWeatherIconClass_default (H : Host) (code : String)
    (hown : code ∉ iconMap.map Prod.fst) (hproto : code ∉ objectPrototypeNames) :
    getWeatherIconClass H (.str code) = .ok (.str "fas fa-cloud") := by
  have hlook : iconMap.lookup code = none := by
    rw [List.lookup_eq_none_iff]
    intro p hp
    have hne : code ≠ p.1 := fun hc => hown (List.mem_map.2 ⟨p, hp, hc.symm⟩)
    simpa using hne
  simp [getWeatherIconClass, toStr, toText, JSVal.convertible, lookupProp, hlook, inherited,
    hproto, JSVal.orElse, JSVal.truthy]

/-- C8, at the inputs where the code departs from it: for the strings
`constructor` and `toString`, which name properties inherited from
`Object.prototype`, `getWeatherIconClass` returns the inherited member and not
the default class `fas fa-cloud`. -/
theorem getWeatherIconClass_inherited (H : Host) :
    getWeatherIconClass H (.str "constructor") = .ok (.builtin "constructor") ∧
    getWeatherIconClass H (.str "toString") = .ok (.builtin "toString") ∧
    getWeatherIconClass H (.str "constructor") ≠ .ok (.str "fas fa-cloud") ∧
    getWeatherIconClass H (.str "toString") ≠ .ok (.str "fas fa-cloud") := by
  have h1 : getWeatherIconClass H (.str "constructor") = .ok (.builtin "constructor") := rfl
  have h2 : getWeatherIconClass H (.str "toString") = .ok (.builtin "toString") := rfl
  refine ⟨h1, h2, ?_, ?_⟩
  · rw [h1]; exact fun h => JSVal.noConfusion (Except.ok.inj h)
  · rw [h2]; exact fun h => JSVal.noConfusion (Except.ok.inj h)

/-! ## Rendering leaves the view regions alone -/

theorem runAssignments_frame {β : Type} (f : App → β)
    (l : List (Except JSError (App → App)))
    (hl : ∀ a ∈ l, ∀ u, a = .ok u → ∀ s, f (u s) = f s) (s : App) :
    f (runAssignments l s).2 = f s := by
  induction l generalizing s with
  | nil => rfl
  | cons a l ih =>
      cases a with
      | error e => rfl
      | ok u =>
          have h1 := ih (fun a ha => hl a (List.mem_cons_of_mem _ ha)) (u s)
          have h2 := hl (.ok u) (List.mem_cons_self _ _) u rfl s
          simp only [runAssignments]
          rw [h1, h2]

theorem runAssignments_fst (l : List (Except JSError (App → App))) (s₁ s₂ : App) :
    (runAssignments l s₁).1 = (runAssignments l s₂).1 := by
  induction l generalizing s₁ s₂ with
  | nil => rfl
  | cons a l ih =>
      cases a with
      | error e => rfl
      | ok u => exact ih (u s₁) (u s₂)

theorem map_eq_ok {α β : Type} {f : α → β} {x : Except JSError α} {y : β}
    (h : x.map f = .ok y) : ∃ v, x = .ok v ∧ y = f v := by
  cases x with
  | error e => simp [Except.map] at h
  | ok v => exact ⟨v, rfl, by simpa [Except.map] using h.symm⟩

theorem weatherAssignments_frame (H : Host) (data cityName countryName : JSVal) (s : App) :
    (runAssignments (weatherAssignments H data cityName countryName) s).2.shell = s.shell ∧
    (runAssignments (weatherAssignments H data cityName countryName) s).2.forecastContainer
      = s.forecastContainer ∧
    (runAssignments (weatherAssignments H data cityName countryName) s).2.forecastList
      = s.forecastList := by
  have key := runAssignments_frame
    (fun s : App => (s.shell, s.forecastContainer, s.forecastList))
    (weatherAssignments H data cityName countryName) ?_ s
  · simpa using key
  · intro a ha u hu s
    simp only [weatherAssignments, List.mem_cons, List.mem_singleton, List.not_mem_nil,
      or_false] at ha
    rcases ha with h | h | h | h | h | h | h | h | h | h | h | h <;> subst h <;>
      first
        | (obtain ⟨v, -, rfl⟩ := map_eq_ok hu; rfl)
        | (cases hu; rfl)

theorem displayWeather_frame (H : Host) (data cityName countryName : JSVal) (s : App) :
    (displayWeather H data cityName countryName s).2.errorText = s.errorText ∧
    (displayWeather H data cityName countryName s).2.requests = s.requests ∧
    (displayWeather H data cityName countryName s).2.errors = s.errors ∧
    (displayWeather H data cityName countryName s).2.cityInput = s.cityInput ∧
    (displayWeather H data cityName countryName s).2.forecastContainer = s.forecastContainer ∧
    (displayWeather H data cityName countryName s).2.forecastList = s.forecastList := by
  obtain ⟨h1, h2, h3⟩ := weatherAssignments_frame H data cityName countryName s
  simp only [App.shell, Prod.mk.injEq] at h1
  unfold displayWeather
  rcases hrun : runAssignments (weatherAssignments H data cityName countryName) s with ⟨r, s'⟩
  rw [hrun] at h1 h2 h3
  cases r <;> simp_all [showWeatherCard]

theorem displayWeather_ok_view (H : Host) (data cityName countryName : JSVal) (s s' : App)
    (h : displayWeather H data cityName countryName s = (.ok (), s')) :
    s'.loading = "none" ∧ s'.weatherCard = "block" ∧ s'.errorMessage = "none" := by
  unfold displayWeather at h
  rcases hrun : runAssignments (weatherAssignments H data cityName countryName) s with ⟨r, t⟩
  rw [hrun] at h
  cases r with
  | error e => simp at h
  | ok u =>
      simp only [Prod.mk.injEq, true_and] at h
      subst h
      simp [showWeatherCard]

theorem displayWeather_fst (H : Host) (data cityName countryName : JSVal) (s₁ s₂ : App) :
    (displayWeather H data cityName countryName s₁).1
      = (displayWeather H data cityName countryName s₂).1 := by
  have h := runAssignments_fst (weatherAssignments H data cityName countryName) s₁ s₂
  unfold displayWeather
  rcases h1 : runAssignments (weatherAssignments H data cityName countryName) s₁ with ⟨r₁, t₁⟩
  rcases h2 : runAssignments (weatherAssignments H data cityName countryName) s₂ with ⟨r₂, t₂⟩
  rw [h1, h2] at h
  simp only at h
  subst h
  cases r₁ <;> rfl

theorem forecastAppends_frame (H : Host) (items : List JSVal) (s : App) :
    (runAssignments (items.map fun item => (forecastElement H item).map appendChild) s).2.shell
      = s.shell ∧
    (runAssignments (items.map fun item => (forecastElement H item).map appendChild) s).2.cardView
      = s.cardView ∧
    (runAssignments (items.map fun item =>
      (forecastElement H item).map appendChild) s).2.forecastContainer = s.forecastContainer := by
  have key := runAssignments_frame
    (fun s : App => (s.shell, s.cardView, s.forecastContainer))
    (items.map fun item => (forecastElement H item).map appendChild) ?_ s
  · simpa using key
  · intro a ha u hu s
    obtain ⟨item, -, rfl⟩ := List.mem_map.1 ha
    obtain ⟨e, -, rfl⟩ := map_eq_ok hu
    rfl

theorem displayForecast_frame (H : Host) (data : JSVal) (s : App) :
    (displayForecast H data s).2.shell = s.shell ∧
    (displayForecast H data s).2.cardView = s.cardView := by
  unfold displayForecast
  cases forecastArray H data with
  | error e => exact ⟨rfl, rfl⟩
  | ok items =>
      obtain ⟨h1, h2, -⟩ := forecastAppends_frame H items { s with forecastList := [] }
      simp only
      rcases hrun : runAssignments
        (items.map fun item => (forecastElement H item).map appendChild)
        { s with forecastList := [] } with ⟨r, t⟩
      rw [hrun] at h1 h2
      cases r <;> exact ⟨h1, h2⟩

theorem displayForecast_fst (H : Host) (data : JSVal) (s₁ s₂ : App) :
    (displayForecast H data s₁).1 = (displayForecast H data s₂).1 := by
  unfold displayForecast
  cases forecastArray H data with
  | error e => rfl
  | ok items =>
      have h := runAssignments_fst
        (items.map fun item => (forecastElement H item).map appendChild)
        { s₁ with forecastList := [] } { s₂ with forecastList := [] }
      simp only
      rcases h1 : runAssignments
        (items.map fun item => (forecastElement H item).map appendChild)
        { s₁ with forecastList := [] } with ⟨r₁, t₁⟩
      rcases h2 : runAssignments
        (items.map fun item => (forecastElement H item).map appendChild)
        { s₂ with forecastList := [] } with ⟨r₂, t₂⟩
      rw [h1, h2] at h
      simp only at h
      subst h
      cases r₁ <;> rfl

theorem forecastAttempt_frame (H : Host) (r : FetchResult) (s : App) :
    (forecastAttempt H r s).2.shell = s.shell ∧
    (forecastAttempt H r s).2.cardView = s.cardView := by
  unfold forecastAttempt
  cases r with
  | rejected e => exact ⟨rfl, rfl⟩
  | response resp =>
      simp only
      split
      · cases resp.json with
        | error e => exact ⟨rfl, rfl⟩
        | ok data => exact displayForecast_frame H data s
      · exact ⟨rfl, rfl⟩

theorem forecastSettled_frame (H : Host) (r : FetchResult) (s : App) :
    (forecastSettled H r s).shell = s.shell ∧
    (forecastSettled H r s).cardView = s.cardView := by
  obtain ⟨h1, h2⟩ := forecastAttempt_frame H r s
  unfold forecastSettled
  rcases hrun : forecastAttempt H r s with ⟨x, t⟩
  rw [hrun] at h1 h2
  cases x <;> exact ⟨h1, h2⟩

theorem forecastSettled_of_error (H : Host) (r : FetchResult) (s : App) (e : JSError)
    (h : (forecastAttempt H r s).1 = .error e) :
    (forecastSettled H r s).forecastContainer = "none" := by
  unfold forecastSettled
  rcases hrun : forecastAttempt H r s with ⟨x, t⟩
  rw [hrun] at h
  simp only at h
  subst h
  rfl

theorem getForecast_frame (H : Host) (net : Net) (lat lon : JSVal) (s : App) :
    (getForecast H net lat lon s).cardView = s.cardView ∧
    (getForecast H net lat lon s).loading = s.loading ∧
    (getForecast H net lat lon s).weatherCard = s.weatherCard ∧
    (getForecast H net lat lon s).errorMessage = s.errorMessage ∧
    (getForecast H net lat lon s).errorText = s.errorText ∧
    (getForecast H net lat lon s).errors = s.errors ∧
    ∃ rest, (getForecast H net lat lon s).requests = s.requests ++ rest := by
  unfold getForecast
  cases Request.url H (.forecast lat lon) with
  | error e => exact ⟨rfl, rfl, rfl, rfl, rfl, rfl, [], by simp⟩
  | ok u =>
      obtain ⟨h1, h2⟩ := forecastSettled_frame H (net (.forecast lat lon))
        (recordFetch (.forecast lat lon) s)
      simp only [App.shell, recordFetch, Prod.mk.injEq] at h1
      obtain ⟨-, a1, a2, a3, a4, a5, a6⟩ := h1
      exact ⟨h2, a1, a2, a3, a4, a6, [.forecast lat lon], a5⟩

theorem weatherAttempt_frame (H : Host) (r : FetchResult) (cityName countryName : JSVal)
    (s : App) :
    (weatherAttempt H r cityName countryName s).2.errorText = s.errorText ∧
    (weatherAttempt H r cityName countryName s).2.requests = s.requests ∧
    (weatherAttempt H r cityName countryName s).2.errors = s.errors ∧
    (weatherAttempt H r cityName countryName s).2.cityInput = s.cityInput ∧
    (weatherAttempt H r cityName countryName s).2.forecastContainer = s.forecastContainer ∧
    (weatherAttempt H r cityName countryName s).2.forecastList = s.forecastList := by
  unfold weatherAttempt
  cases r with
  | rejected e => simp
  | response resp =>
      simp only
      split
      · cases resp.json with
        | error e => simp
        | ok data => exact displayWeather_frame H data cityName countryName s
      · simp

theorem weatherAttempt_fst (H : Host) (r : FetchResult) (cityName countryName : JSVal)
    (s₁ s₂ : App) :
    (weatherAttempt H r cityName countryName s₁).1
      = (weatherAttempt H r cityName countryName s₂).1 := by
  unfold weatherAttempt
  cases r with
  | rejected e => rfl
  | response resp =>
      simp only
      split
      · cases resp.json with
        | error e => rfl
        | ok data => exact displayWeather_fst H data cityName countryName s₁ s₂
      · rfl

theorem getWeatherByCoords_requests (H : Host) (net : Net) (lat lon cityName countryName : JSVal)
    (s : App) :
    ∃ rest, (getWeatherByCoords H net lat lon cityName countryName s).requests
      = s.requests ++ rest := by
  unfold getWeatherByCoords
  cases Request.url H (.weather lat lon) with
  | error e => exact ⟨[], by simp [weatherFailed, showError]⟩
  | ok u =>
      obtain ⟨-, hreq, -⟩ := weatherAttempt_frame H (net (.weather lat lon))
        (defaultNull cityName) (defaultNull countryName) (recordFetch (.weather lat lon) s)
      rcases hrun : weatherAttempt H (net (.weather lat lon)) (defaultNull cityName)
        (defaultNull countryName) (recordFetch (.weather lat lon) s) with ⟨x, t⟩
      rw [hrun] at hreq
      simp only [recordFetch] at hreq
      cases x with
      | error e => exact ⟨[.weather lat lon], by simp [weatherFailed, showError, hreq]⟩
      | ok u =>
          obtain ⟨-, -, -, -, -, -, rest, h⟩ := getForecast_frame H net lat lon t
          exact ⟨.weather lat lon :: rest, by simp only; rw [h, hreq]; simp⟩

theorem getWeatherByCity_requests (H : Host) (net : Net) (city : String) (s : App) :
    ∃ rest, (getWeatherByCity H net city s).requests = s.requests ++ .geocode city :: rest := by
  unfold getWeatherByCity getCityCoordinates
  cases geocodeSettled H (net (.geocode city)) with
  | none => exact ⟨[], by simp [showError, recordFetch, showLoading]⟩
  | some c =>
      obtain ⟨rest, h⟩ := getWeatherByCoords_requests H net c.lat c.lon c.name c.country
        (recordFetch (.geocode city) (showLoading s))
      refine ⟨rest, ?_⟩
      simp only
      rw [h]
      simp [recordFetch, showLoading]

/-! ## Validation of the city input -/

theorem trim_blank (text : String) (h : ∀ c ∈ text.data, isWhiteSpace c = true) :
    trim text = "" := by
  have hdrop : text.data.dropWhile isWhiteSpace = [] := by
    rw [List.dropWhile_eq_nil_iff]
    exact h
  simp [trim, hdrop, List.rdropWhile]

/-- C2: for every empty or whitespace-only value of the city input,
`searchWeather` issues no request and ends in the error view with the message
`Please enter a city name`. -/
theorem searchWeather_blank (H : Host) (net : Net) (s : App)
    (h : ∀ c ∈ s.cityInput.data, isWhiteSpace c = true) :
    (searchWeather H net s).requests = s.requests ∧
    (searchWeather H net s).errorMessage = "block" ∧
    (searchWeather H net s).loading = "none" ∧
    (searchWeather H net s).weatherCard = "none" ∧
    (searchWeather H net s).forecastContainer = "none" ∧
    (searchWeather H net s).errorText = "Please enter a city name" ∧
    (searchWeather H net s).errors = s.errors ++ ["Please enter a city name"] := by
  simp [searchWeather, trim_blank _ h, showError]

theorem searchWeather_blank_witness :
    (searchWeather sampleHost (fun _ => okJson (geocodeBody "London" "GB"))
      { blankApp with cityInput := " \t  " }).requests = [] ∧
    (searchWeather sampleHost (fun _ => okJson (geocodeBody "London" "GB"))
      { blankApp with cityInput := " \t  " }).errorMessage = "block" :=
  have h := searchWeather_blank sampleHost (fun _ => okJson (geocodeBody "London" "GB"))
    { blankApp with cityInput := " \t  " } (by decide)
  ⟨h.1, h.2.1⟩

/-! ## Lookup by city name -/

theorem notFoundMessage_mentions (city : String) :
    ∃ before after, notFoundMessage city = before ++ "not found" ++ after :=
  ⟨"City \"" ++ city ++ "\" ", ". Please check the spelling and try again.", by
    simp [notFoundMessage, String.append_assoc]⟩

/-- C3: when the geocoding endpoint answers a city query successfully with an
empty array, `getWeatherByCity` ends in the error view, the error text is the
message `City "..." not found. ...`, which contains `not found`, and the
geocoding request is the only request made (no weather request, no forecast
request). -/
theorem getWeatherByCity_not_found (H : Host) (net : Net) (city : String) (s : App)
    (r : Response) (hfetch : net (.geocode city) = .response r) (hok : r.ok = true)
    (hjson : r.json = .ok (.arr [])) :
    (getWeatherByCity H net city s).requests = s.requests ++ [.geocode city] ∧
    (getWeatherByCity H net city s).errorMessage = "block" ∧
    (getWeatherByCity H net city s).loading = "none" ∧
    (getWeatherByCity H net city s).weatherCard = "none" ∧
    (getWeatherByCity H net city s).forecastContainer = "none" ∧
    (getWeatherByCity H net city s).errorText = notFoundMessage city ∧
    ∃ before after,
      (getWeatherByCity H net city s).errorText = before ++ "not found" ++ after := by
  have hnone : geocodeSettled H (net (.geocode city)) = none := by
    simp [geocodeSettled, geocodeAttempt, hfetch, hok, hjson, JSVal.get, JSVal.isZero]
  have hrun : getWeatherByCity H net city s
      = showError (notFoundMessage city) (recordFetch (.geocode city) (showLoading s)) := by
    simp [getWeatherByCity, getCityCoordinates, hnone]
  rw [hrun]
  exact ⟨rfl, rfl, rfl, rfl, rfl, rfl, notFoundMessage_mentions city⟩

theorem getWeatherByCity_not_found_witness :
    (getWeatherByCity sampleHost unknownCityNet "Atlantis" blankApp).requests
      = [.geocode "Atlantis"] ∧
    (getWeatherByCity sampleHost unknownCityNet "Atlantis" blankApp).errorMessage = "block" ∧
    (getWeatherByCity sampleHost unknownCityNet "Atlantis" blankApp).errorText
      = "City \"Atlantis\" not found. Please check the spelling and try again." :=
  have h := getWeatherByCity_not_found sampleHost unknownCityNet "Atlantis" blankApp
    { status := 200, json := .ok (.arr []) } rfl (by decide) rfl
  ⟨h.1, h.2.1, h.2.2.2.2.2.1⟩

theorem geocodeSettled_of_failure (H : Host) (r : FetchResult)
    (h : (∃ e, r = .rejected e) ∨ ∃ resp, r = .response resp ∧ resp.ok = false) :
    geocodeSettled H r = none := by
  rcases h with ⟨e, rfl⟩ | ⟨resp, rfl, hok⟩
  · rfl
  · simp [geocodeSettled, geocodeAttempt, hok]

theorem getWeatherByCity_geocoding_failure (H : Host) (net : Net) (city : String) (s : App)
    (h : (∃ e, net (.geocode city) = .rejected e) ∨
      ∃ resp, net (.geocode city) = .response resp ∧ resp.ok = false) :
    getWeatherByCity H net city s
      = showError (notFoundMessage city) (recordFetch (.geocode city) (showLoading s)) := by
  simp [getWeatherByCity, getCityCoordinates, geocodeSettled_of_failure H _ h]

/-- C5, at an input where the code departs from it: when the geocoding request
for `London` is answered 401 with the message `Invalid API key`, the `try`
block of `getCityCoordinates` throws an error that carries the status and the
message of the provider, its `catch` turns it into `null`, and
`getWeatherByCity` reports `City "London" not found`. -/
theorem geocoding_error_reported_as_not_found :
    geocodeAttempt sampleHost (unauthorizedNet (.geocode "London"))
      = .error ⟨"API Error: 401 - Invalid API key"⟩ ∧
    (getCityCoordinates sampleHost unauthorizedNet "London" blankApp).1.isNone = true ∧
    (getWeatherByCity sampleHost unauthorizedNet "London" blankApp).errorMessage = "block" ∧
    (getWeatherByCity sampleHost unauthorizedNet "London" blankApp).errorText
      = "City \"London\" not found. Please check the spelling and try again." ∧
    (getWeatherByCity sampleHost unauthorizedNet "London" blankApp).errors
      = ["City \"London\" not found. Please check the spelling and try again."] :=
  ⟨rfl, rfl, rfl, rfl, rfl⟩

/-! ## Startup -/

/-- C7: `loadDefaultWeather` starts the lookup of `London` when `testApiKey`
returns true and otherwise shows the invalid-key message and makes no request
beyond the probe; `testApiKey` returns false for a probe answered 401, 403 or
429 and true for a probe answered with an ok status; when the probe is
answered 401 the error view shows the invalid-key message and the probe is the
only request made. -/
theorem loadDefaultWeather_gated (H : Host) (net : Net) (s : App) :
    ((testApiKey net s).1 = true →
      loadDefaultWeather H net s = getWeatherByCity H net "London" (recordFetch .probe s) ∧
      ∃ rest, (loadDefaultWeather H net s).requests
        = s.requests ++ .probe :: .geocode "London" :: rest) ∧
    ((testApiKey net s).1 = false →
      loadDefaultWeather H net s = showError invalidKeyMessage (recordFetch .probe s) ∧
      (loadDefaultWeather H net s).requests = s.requests ++ [.probe]) ∧
    (∀ r, net .probe = .response r → r.status = 401 ∨ r.status = 403 ∨ r.status = 429 →
      (testApiKey net s).1 = false) ∧
    (∀ r, net .probe = .response r → r.ok = true → (testApiKey net s).1 = true) ∧
    (∀ r, net .probe = .response r → r.status = 401 →
      (loadDefaultWeather H net s).errorMessage = "block" ∧
      (loadDefaultWeather H net s).weatherCard = "none" ∧
      (loadDefaultWeather H net s).errorText = invalidKeyMessage ∧
      (loadDefaultWeather H net s).requests = s.requests ++ [.probe]) := by
  have hfalse : (testApiKey net s).1 = false →
      loadDefaultWeather H net s = showError invalidKeyMessage (recordFetch .probe s) := by
    intro h
    have hpair : testApiKey net s = ((testApiKey net s).1, recordFetch .probe s) := rfl
    unfold loadDefaultWeather
    rw [hpair, h]
  have h401 : ∀ r, net .probe = .response r →
      r.status = 401 ∨ r.status = 403 ∨ r.status = 429 → (testApiKey net s).1 = false := by
    intro r hr hstatus
    simp only [testApiKey, hr]
    rcases hstatus with h | h | h <;> simp [h]
  refine ⟨?_, ?_, h401, ?_, ?_⟩
  · intro h
    have hrun : loadDefaultWeather H net s
        = getWeatherByCity H net "London" (recordFetch .probe s) := by
      have hpair : testApiKey net s = ((testApiKey net s).1, recordFetch .probe s) := rfl
      unfold loadDefaultWeather
      rw [hpair, h]
    refine ⟨hrun, ?_⟩
    obtain ⟨rest, hrest⟩ := getWeatherByCity_requests H net "London" (recordFetch .probe s)
    exact ⟨rest, by rw [hrun, hrest]; simp [recordFetch]⟩
  · intro h
    refine ⟨hfalse h, ?_⟩
    rw [hfalse h]
    rfl
  · intro r hr hok
    simp only [Response.ok, decide_eq_true_eq] at hok
    have h1 : r.status ≠ 401 := by omega
    have h2 : r.status ≠ 403 := by omega
    have h3 : r.status ≠ 429 := by omega
    simp [testApiKey, hr, h1, h2, h3, Response.ok, hok]
  · intro r hr hstatus
    rw [hfalse (h401 r hr (Or.inl hstatus))]
    exact ⟨rfl, rfl, rfl, rfl⟩

theorem loadDefaultWeather_gated_witness :
    (loadDefaultWeather sampleHost unauthorizedNet blankApp).errorMessage = "block" ∧
    (loadDefaultWeather sampleHost unauthorizedNet blankApp).weatherCard = "none" ∧
    (loadDefaultWeather sampleHost unauthorizedNet blankApp).errorText = invalidKeyMessage ∧
    (loadDefaultWeather sampleHost unauthorizedNet blankApp).requests = [] ++ [.probe] :=
  (loadDefaultWeather_gated sampleHost unauthorizedNet blankApp).2.2.2.2
    { status := 401,
      json := .ok (.obj [("cod", .num 401), ("message", .str "Invalid API key")]) } rfl rfl

/-! ## What `displayWeather` writes -/

theorem andThen_coerce_ok (H : Host) (x : Except JSError JSVal) (v : JSVal)
    (h : andThen x (coerce H) = .ok v) : x = .ok v ∧ v.convertible = true := by
  cases x with
  | error e => simp [andThen] at h
  | ok w =>
      simp only [andThen, coerce] at h
      by_cases hw : w.convertible = true
      · simp only [hw, if_true] at h
        cases h
        exact ⟨rfl, hw⟩
      · simp [hw] at h

theorem displayWeather_ok (H : Host) (data cityName countryName : JSVal) (s s' : App)
    (h : displayWeather H data cityName countryName s = (.ok (), s')) :
    ∃ name country icon temp desc vis hum wind feels pres,
      andThen (orRead H cityName data ["name"]) (coerce H) = .ok name ∧
      andThen (orRead H countryName data ["sys", "country"]) (coerce H) = .ok country ∧
      andThen (andThen (data.path H ["weather", "0", "icon"]) (getWeatherIconClass H))
        (coerce H) = .ok icon ∧
      andThen (data.path H ["main", "temp"]) (coerce H) = .ok temp ∧
      andThen (data.path H ["weather", "0", "description"]) (coerce H) = .ok desc ∧
      andThen (data.path H ["visibility"]) (coerce H) = .ok vis ∧
      andThen (data.path H ["main", "humidity"]) (toStr H) = .ok hum ∧
      andThen (data.path H ["wind", "speed"]) (toStr H) = .ok wind ∧
      andThen (data.path H ["main", "feels_like"]) (coerce H) = .ok feels ∧
      andThen (data.path H ["main", "pressure"]) (toStr H) = .ok pres ∧
      s' = showWeatherCard
        { s with cityName := name, country := country, date := H.today,
                 weatherIcon := icon, temperature := H.roundText temp,
                 description := desc, visibility := H.kmFixed1 vis ++ " km",
                 humidity := hum ++ "%", windSpeed := wind ++ " m/s",
                 feelsLike := H.roundText feels ++ "°C", pressure := pres ++ " hPa",
                 uvIndex := "N/A" } := by
  unfold displayWeather weatherAssignments at h
  rcases h1 : andThen (orRead H cityName data ["name"]) (coerce H) with e | name
  · simp [h1, Except.map, runAssignments] at h
  rcases h2 : andThen (orRead H countryName data ["sys", "country"]) (coerce H)
    with e | country
  · simp [h1, h2, Except.map, runAssignments] at h
  rcases h3 : andThen (andThen (data.path H ["weather", "0", "icon"])
    (getWeatherIconClass H)) (coerce H) with e | icon
  · simp [h1, h2, h3, Except.map, runAssignments] at h
  rcases h4 : andThen (data.path H ["main", "temp"]) (coerce H) with e | temp
  · simp [h1, h2, h3, h4, Except.map, runAssignments] at h
  rcases h5 : andThen (data.path H ["weather", "0", "description"]) (coerce H) with e | desc
  · simp [h1, h2, h3, h4, h5, Except.map, runAssignments] at h
  rcases h6 : andThen (data.path H ["visibility"]) (coerce H) with e | vis
  · simp [h1, h2, h3, h4, h5, h6, Except.map, runAssignments] at h
  rcases h7 : andThen (data.path H ["main", "humidity"]) (toStr H) with e | hum
  · simp [h1, h2, h3, h4, h5, h6, h7, Except.map, runAssignments] at h
  rcases h8 : andThen (data.path H ["wind", "speed"]) (toStr H) with e | wind
  · simp [h1, h2, h3, h4, h5, h6, h7, h8, Except.map, runAssignments] at h
  rcases h9 : andThen (data.path H ["main", "feels_like"]) (coerce H) with e | feels
  · simp [h1, h2, h3, h4, h5, h6, h7, h8, h9, Except.map, runAssignments] at h
  rcases h10 : andThen (data.path H ["main", "pressure"]) (toStr H) with e | pres
  · simp [h1, h2, h3, h4, h5, h6, h7, h8, h9, h10, Except.map, runAssignments] at h
  refine ⟨name, country, icon, temp, desc, vis, hum, wind, feels, pres,
    rfl, rfl, rfl, rfl, rfl, rfl, rfl, rfl, rfl, rfl, ?_⟩
  simp only [h1, h2, h3, h4, h5, h6, h7, h8, h9, h10, Except.map, runAssignments,
    Prod.mk.injEq, true_and] at h
  exact h.symm

theorem url_weather_ok (H : Host) (lat lon : JSVal) (hlat : lat.convertible = true)
    (hlon : lon.convertible = true) : ∃ u, Request.url H (.weather lat lon) = .ok u := by
  simp [Request.url, toStr, andThen, hlat, hlon]

theorem url_forecast_ok (H : Host) (lat lon : JSVal) (hlat : lat.convertible = true)
    (hlon : lon.convertible = true) : ∃ u, Request.url H (.forecast lat lon) = .ok u := by
  simp [Request.url, toStr, andThen, hlat, hlon]

theorem url_weather_convertible (H : Host) (lat lon : JSVal) (u : String)
    (h : Request.url H (.weather lat lon) = .ok u) :
    lat.convertible = true ∧ lon.convertible = true := by
  by_cases hlat : lat.convertible = true
  · by_cases hlon : lon.convertible = true
    · exact ⟨hlat, hlon⟩
    · simp [Request.url, toStr, andThen, hlat, hlon] at h
  · simp [Request.url, toStr, andThen, hlat] at h

/-! ## A failed forecast -/

theorem forecastAttempt_fails (H : Host) (r : FetchResult) (s s₁ : App)
    (hfail : (∃ e, r = .rejected e) ∨
      ∃ resp, r = .response resp ∧
        (resp.ok = false ∨ (∃ e, resp.json = .error e) ∨
          ∃ d e, resp.json = .ok d ∧ (displayForecast H d s₁).1 = .error e)) :
    ∃ e, (forecastAttempt H r s).1 = .error e := by
  rcases hfail with ⟨e, rfl⟩ | ⟨resp, rfl, hresp⟩
  · exact ⟨e, rfl⟩
  · unfold forecastAttempt
    by_cases hok : resp.ok = true
    · rcases hresp with h | ⟨e, h⟩ | ⟨d, e, h, hd⟩
      · simp [hok] at h
      · exact ⟨e, by simp [hok, h]⟩
      · exact ⟨e, by simp only [hok, h, if_true]; rw [displayForecast_fst H d s s₁, hd]⟩
    · exact ⟨_, by simp only [hok]; rfl⟩

/-- C4: when the current-weather request of `getWeatherByCoords` is issued (the
coordinates convert to strings) and answered with an ok status and a body that
`displayWeather` displays, and the forecast request then fails (the fetch
rejects, the status is not ok, the body is not JSON, or `displayForecast`
throws on it), the final view is the weather card with the forecast container
hidden, `showError` is never called and the error text is left as it was. -/
theorem forecast_failure_keeps_card (H : Host) (net : Net)
    (lat lon cityName countryName : JSVal) (s s₀ s₁ : App) (resp : Response)
    (weatherData : JSVal)
    (hlat : lat.convertible = true) (hlon : lon.convertible = true)
    (hfetch : net (.weather lat lon) = .response resp) (hok : resp.ok = true)
    (hjson : resp.json = .ok weatherData)
    (hshown : (displayWeather H weatherData (defaultNull cityName)
      (defaultNull countryName) s₀).1 = .ok ())
    (hfail : (∃ e, net (.forecast lat lon) = .rejected e) ∨
      ∃ r, net (.forecast lat lon) = .response r ∧
        (r.ok = false ∨ (∃ e, r.json = .error e) ∨
          ∃ d e, r.json = .ok d ∧ (displayForecast H d s₁).1 = .error e)) :
    (getWeatherByCoords H net lat lon cityName countryName s).loading = "none" ∧
    (getWeatherByCoords H net lat lon cityName countryName s).weatherCard = "block" ∧
    (getWeatherByCoords H net lat lon cityName countryName s).errorMessage = "none" ∧
    (getWeatherByCoords H net lat lon cityName countryName s).forecastContainer = "none" ∧
    (getWeatherByCoords H net lat lon cityName countryName s).errors = s.errors ∧
    (getWeatherByCoords H net lat lon cityName countryName s).errorText = s.errorText := by
  obtain ⟨u, hu⟩ := url_weather_ok H lat lon hlat hlon
  obtain ⟨u', hu'⟩ := url_forecast_ok H lat lon hlat hlon
  have hattempt : weatherAttempt H (net (.weather lat lon)) (defaultNull cityName)
      (defaultNull countryName) (recordFetch (.weather lat lon) s)
      = displayWeather H weatherData (defaultNull cityName) (defaultNull countryName)
          (recordFetch (.weather lat lon) s) := by
    simp [weatherAttempt, hfetch, hok, hjson]
  have hfst := displayWeather_fst H weatherData (defaultNull cityName)
    (defaultNull countryName) (recordFetch (.weather lat lon) s) s₀
  rw [hshown] at hfst
  obtain ⟨hT, hR, hE, -, -, -⟩ := displayWeather_frame H weatherData (defaultNull cityName)
    (defaultNull countryName) (recordFetch (.weather lat lon) s)
  rcases hrun : displayWeather H weatherData (defaultNull cityName) (defaultNull countryName)
    (recordFetch (.weather lat lon) s) with ⟨x, t⟩
  rw [hrun] at hfst hT hR hE
  simp only at hfst hT hR hE
  subst hfst
  obtain ⟨hl, hc, hm⟩ := displayWeather_ok_view H _ _ _ _ _ hrun
  have hfinal : getWeatherByCoords H net lat lon cityName countryName s
      = getForecast H net lat lon t := by
    unfold getWeatherByCoords
    rw [hu]
    simp only
    rw [hattempt, hrun]
  obtain ⟨e, he⟩ := forecastAttempt_fails H (net (.forecast lat lon))
    (recordFetch (.forecast lat lon) t) s₁ hfail
  have hcont : (getForecast H net lat lon t).forecastContainer = "none" := by
    unfold getForecast
    rw [hu']
    exact forecastSettled_of_error H _ _ e he
  obtain ⟨-, h1, h2, h3, h4, h5, -⟩ := getForecast_frame H net lat lon t
  rw [hfinal]
  refine ⟨h1.trans hl, h2.trans hc, h3.trans hm, hcont, ?_, ?_⟩
  · rw [h5, hE]; rfl
  · rw [h4, hT]; rfl

theorem forecast_failure_keeps_card_witness :
    (getWeatherByCoords sampleHost renamingNet (.num 51) (.num 0) .undefined .undefined
      blankApp).loading = "none" ∧
    (getWeatherByCoords sampleHost renamingNet (.num 51) (.num 0) .undefined .undefined
      blankApp).weatherCard = "block" ∧
    (getWeatherByCoords sampleHost renamingNet (.num 51) (.num 0) .undefined .undefined
      blankApp).errorMessage = "none" ∧
    (getWeatherByCoords sampleHost renamingNet (.num 51) (.num 0) .undefined .undefined
      blankApp).forecastContainer = "none" ∧
    (getWeatherByCoords sampleHost renamingNet (.num 51) (.num 0) .undefined .undefined
      blankApp).errors = [] ∧
    (getWeatherByCoords sampleHost renamingNet (.num 51) (.num 0) .undefined .undefined
      blankApp).errorText = "" :=
  forecast_failure_keeps_card sampleHost renamingNet (.num 51) (.num 0) .undefined .undefined
    blankApp blankApp blankApp
    { status := 200, json := .ok (weatherBody "City of London" "UK") }
    (weatherBody "City of London" "UK") rfl rfl rfl (by decide) rfl rfl
    (Or.inr ⟨{ status := 500, json := .error ⟨"Unexpected end of JSON input"⟩ }, rfl,
      Or.inl (by decide)⟩)

/-! ## The displayed place -/

theorem defaultNull_of_truthy (v : JSVal) (h : v.truthy = true) : defaultNull v = v := by
  cases v <;> simp_all [defaultNull, JSVal.truthy]

theorem defaultNull_truthy (v : JSVal) : (defaultNull v).truthy = v.truthy := by
  cases v <;> rfl

theorem geocodeSettled_entry (H : Host) (r : Response) (entry : List (String × JSVal))
    (more : List JSVal) (hok : r.ok = true) (hjson : r.json = .ok (.arr (.obj entry :: more))) :
    geocodeSettled H (.response r)
      = some { lat := lookupProp entry "lat", lon := lookupProp entry "lon",
               name := lookupProp entry "name", country := lookupProp entry "country" } := by
  have h0 : arrayIndex "0" = some 0 := by decide
  have hlen : ("0" = "length") = False := by decide
  have hcast : ((more.length : ℚ) + 1 = 0) = False := by
    simp only [eq_iff_iff, iff_false]
    exact_mod_cast Nat.succ_ne_zero more.length
  simp [geocodeSettled, geocodeAttempt, hok, hjson, JSVal.get, JSVal.isZero, firstCoords,
    JSVal.path, h0, hlen, hcast]

theorem getWeatherByCoords_card (H : Host) (net : Net) (lat lon cityName countryName : JSVal)
    (s : App) (resp : Response) (weatherData : JSVal)
    (hfetch : net (.weather lat lon) = .response resp) (hok : resp.ok = true)
    (hjson : resp.json = .ok weatherData)
    (hcard : (getWeatherByCoords H net lat lon cityName countryName s).weatherCard = "block") :
    orRead H (defaultNull cityName) weatherData ["name"]
      = .ok (getWeatherByCoords H net lat lon cityName countryName s).cityName ∧
    orRead H (defaultNull countryName) weatherData ["sys", "country"]
      = .ok (getWeatherByCoords H net lat lon cityName countryName s).country := by
  have hattempt : weatherAttempt H (net (.weather lat lon)) (defaultNull cityName)
      (defaultNull countryName) (recordFetch (.weather lat lon) s)
      = displayWeather H weatherData (defaultNull cityName) (defaultNull countryName)
          (recordFetch (.weather lat lon) s) := by
    simp [weatherAttempt, hfetch, hok, hjson]
  unfold getWeatherByCoords at hcard ⊢
  cases hurl : Request.url H (.weather lat lon) with
  | error e =>
      rw [hurl] at hcard
      simp [weatherFailed, showError] at hcard
  | ok u =>
      rw [hurl] at hcard
      simp only at hcard ⊢
      rw [hattempt] at hcard ⊢
      rcases hrun : displayWeather H weatherData (defaultNull cityName)
        (defaultNull countryName) (recordFetch (.weather lat lon) s) with ⟨x, t⟩
      rw [hrun] at hcard
      cases x with
      | error e => simp [weatherFailed, showError] at hcard
      | ok u =>
          obtain ⟨name, country, icon, temp, desc, vis, hum, wind, feels, pres,
            h1, h2, -, -, -, -, -, -, -, -, ht⟩ := displayWeather_ok H _ _ _ _ _ hrun
          have hview := (getForecast_frame H net lat lon t).1
          have hn : (getForecast H net lat lon t).cityName = t.cityName :=
            congrArg CardView.cityName hview
          have hc : (getForecast H net lat lon t).country = t.country :=
            congrArg CardView.country hview
          simp only
          rw [hn, hc, (andThen_coerce_ok H _ _ h1).1, (andThen_coerce_ok H _ _ h2).1, ht]
          exact ⟨rfl, rfl⟩

/-- C6, amended: for every lookup by city name that ends with the weather card
shown, the displayed city name is the `name` of the geocoding entry whenever
that name is truthy (a non-empty string), whatever the weather response
carries, and otherwise it is the `name` of the weather response; likewise the
displayed country is the geocoding `country` when truthy and otherwise
`sys.country` of the weather response.  For a lookup by device coordinates
that ends with the weather card shown, both are those of the weather response. -/
theorem displayed_place_source (H : Host) (net : Net) (s : App) :
    (∀ (city : String) (r : Response) (entry : List (String × JSVal)) (more : List JSVal)
        (resp : Response) (weatherData : JSVal),
      net (.geocode city) = .response r → r.ok = true →
      r.json = .ok (.arr (.obj entry :: more)) →
      net (.weather (lookupProp entry "lat") (lookupProp entry "lon")) = .response resp →
      resp.ok = true → resp.json = .ok weatherData →
      (getWeatherByCity H net city s).weatherCard = "block" →
      ((lookupProp entry "name").truthy = true →
        (getWeatherByCity H net city s).cityName = lookupProp entry "name") ∧
      ((lookupProp entry "country").truthy = true →
        (getWeatherByCity H net city s).country = lookupProp entry "country") ∧
      ((lookupProp entry "name").truthy = false →
        weatherData.path H ["name"] = .ok (getWeatherByCity H net city s).cityName) ∧
      ((lookupProp entry "country").truthy = false →
        weatherData.path H ["sys", "country"]
          = .ok (getWeatherByCity H net city s).country)) ∧
    (∀ (latitude longitude : JSVal) (resp : Response) (weatherData : JSVal),
      net (.weather latitude longitude) = .response resp →
      resp.ok = true → resp.json = .ok weatherData →
      (getCurrentLocationWeather H net (some (.position latitude longitude)) s).weatherCard
        = "block" →
      weatherData.path H ["name"]
        = .ok (getCurrentLocationWeather H net
            (some (.position latitude longitude)) s).cityName ∧
      weatherData.path H ["sys", "country"]
        = .ok (getCurrentLocationWeather H net
            (some (.position latitude longitude)) s).country) := by
  constructor
  · intro city r entry more resp weatherData hgeo hok1 hjson1 hw hok2 hjson2 hcard
    have hrun : getWeatherByCity H net city s
        = getWeatherByCoords H net (lookupProp entry "lat") (lookupProp entry "lon")
            (lookupProp entry "name") (lookupProp entry "country")
            (recordFetch (.geocode city) (showLoading s)) := by
      simp [getWeatherByCity, getCityCoordinates, hgeo,
        geocodeSettled_entry H r entry more hok1 hjson1]
    rw [hrun] at hcard ⊢
    obtain ⟨hn, hc⟩ := getWeatherByCoords_card H net _ _ _ _ _ resp weatherData hw hok2
      hjson2 hcard
    refine ⟨fun ht => ?_, fun ht => ?_, fun ht => ?_, fun ht => ?_⟩
    · rw [defaultNull_of_truthy _ ht] at hn
      simp only [orRead, ht, if_true] at hn
      exact (Except.ok.inj hn).symm
    · rw [defaultNull_of_truthy _ ht] at hc
      simp only [orRead, ht, if_true] at hc
      exact (Except.ok.inj hc).symm
    · simpa [orRead, defaultNull_truthy, ht] using hn
    · simpa [orRead, defaultNull_truthy, ht] using hc
  · intro latitude longitude resp weatherData hw hok hjson hcard
    simp only [getCurrentLocationWeather] at hcard ⊢
    obtain ⟨hn, hc⟩ := getWeatherByCoords_card H net _ _ _ _ _ resp weatherData hw hok
      hjson hcard
    exact ⟨by simpa [orRead, defaultNull, JSVal.truthy] using hn,
      by simpa [orRead, defaultNull, JSVal.truthy] using hc⟩

theorem displayed_place_source_witness :
    (getWeatherByCity sampleHost renamingNet "London" blankApp).cityName = .str "London" ∧
    (getWeatherByCity sampleHost renamingNet "London" blankApp).country = .str "GB" :=
  have h := (displayed_place_source sampleHost renamingNet blankApp).1 "London"
    { status := 200, json := .ok (geocodeBody "London" "GB") }
    [("name", .str "London"), ("lat", .num (5151 / 100)), ("lon", .num (-13 / 100)),
     ("country", .str "GB")] []
    { status := 200, json := .ok (weatherBody "City of London" "UK") }
    (weatherBody "City of London" "UK") rfl (by decide) rfl rfl (by decide) rfl rfl
  ⟨h.1 rfl, h.2.1 rfl⟩

/-- C6 as stated fails: when the geocoding entry has the empty name, the
lookup succeeds and the displayed city name is the one of the weather
response, not the one returned by geocoding. -/
theorem displayed_name_not_from_geocoding :
    geocodeSettled sampleHost (namelessNet (.geocode "London"))
      = some { lat := .num (5151 / 100), lon := .num (-13 / 100), name := .str "",
               country := .str "GB" } ∧
    (getWeatherByCity sampleHost namelessNet "London" blankApp).weatherCard = "block" ∧
    (getWeatherByCity sampleHost namelessNet "London" blankApp).errorMessage = "none" ∧
    (getWeatherByCity sampleHost namelessNet "London" blankApp).cityName
      = .str "City of London" ∧
    (getWeatherByCity sampleHost namelessNet "London" blankApp).cityName ≠ .str "" := by
  refine ⟨rfl, rfl, rfl, rfl, ?_⟩
  have h : (getWeatherByCity sampleHost namelessNet "London" blankApp).cityName
      = .str "City of London" := rfl
  rw [h]
  intro hne
  injection hne with hs
  exact absurd hs (by decide)

/-! ## First item of each date -/

section FirstPerKey

variable {α κ : Type} [DecidableEq κ] (key : α → κ)

theorem firstPerKey_congr (seen seen' : List κ) (xs : List α)
    (h : ∀ k, k ∈ seen ↔ k ∈ seen') : firstPerKey key seen xs = firstPerKey key seen' xs := by
  induction xs generalizing seen seen' with
  | nil => rfl
  | cons x xs ih =>
      by_cases hx : key x ∈ seen
      · have hx' : key x ∈ seen' := (h _).1 hx
        simp only [firstPerKey, hx, hx', if_true]
        exact ih seen seen' h
      · have hx' : key x ∉ seen' := fun hm => hx ((h _).2 hm)
        simp only [firstPerKey, hx, hx', if_false]
        rw [ih (key x :: seen) (key x :: seen') (fun k => by simp [h k])]

theorem firstPerKey_sublist (seen : List κ) (xs : List α) :
    (firstPerKey key seen xs).Sublist xs := by
  induction xs generalizing seen with
  | nil => exact List.Sublist.slnil
  | cons x xs ih =>
      by_cases hx : key x ∈ seen
      · simp only [firstPerKey, hx, if_true]
        exact (ih seen).cons x
      · simp only [firstPerKey, hx, if_false]
        exact (ih (key x :: seen)).cons₂ x

theorem firstPerKey_not_seen (seen : List κ) (xs : List α) :
    ∀ c ∈ firstPerKey key seen xs, key c ∉ seen := by
  induction xs generalizing seen with
  | nil => intro c hc; simp [firstPerKey] at hc
  | cons x xs ih =>
      intro c hc
      by_cases hx : key x ∈ seen
      · simp only [firstPerKey, hx, if_true] at hc
        exact ih seen c hc
      · simp only [firstPerKey, hx, if_false, List.mem_cons] at hc
        rcases hc with rfl | hc
        · exact hx
        · exact fun hm => ih (key x :: seen) c hc (List.mem_cons_of_mem _ hm)

theorem firstPerKey_nodup (seen : List κ) (xs : List α) :
    ((firstPerKey key seen xs).map key).Nodup := by
  induction xs generalizing seen with
  | nil => simp [firstPerKey]
  | cons x xs ih =>
      by_cases hx : key x ∈ seen
      · simp only [firstPerKey, hx, if_true]
        exact ih seen
      · simp only [firstPerKey, hx, if_false, List.map_cons, List.nodup_cons]
        refine ⟨?_, ih (key x :: seen)⟩
        intro hm
        obtain ⟨c, hc, hk⟩ := List.mem_map.1 hm
        exact firstPerKey_not_seen key (key x :: seen) xs c hc (by simp [hk])

theorem firstPerKey_covers (seen : List κ) (xs : List α) :
    ∀ x ∈ xs, key x ∈ seen ∨ key x ∈ (firstPerKey key seen xs).map key := by
  induction xs generalizing seen with
  | nil => intro x hx; simp at hx
  | cons y ys ih =>
      intro x hx
      by_cases hy : key y ∈ seen
      · simp only [firstPerKey, hy, if_true]
        rcases List.mem_cons.1 hx with rfl | hx'
        · exact Or.inl hy
        · exact ih seen x hx'
      · simp only [firstPerKey, hy, if_false, List.map_cons, List.mem_cons]
        rcases List.mem_cons.1 hx with rfl | hx'
        · exact Or.inr (Or.inl rfl)
        · rcases ih (key y :: seen) x hx' with h | h
          · rcases List.mem_cons.1 h with h | h
            · exact Or.inr (Or.inl h)
            · exact Or.inl h
          · exact Or.inr (Or.inr h)

theorem firstPerKey_first (seen : List κ) (xs : List α) :
    ∀ c ∈ firstPerKey key seen xs, xs.find? (fun x => decide (key x = key c)) = some c := by
  induction xs generalizing seen with
  | nil => intro c hc; simp [firstPerKey] at hc
  | cons x xs ih =>
      intro c hc
      by_cases hx : key x ∈ seen
      · simp only [firstPerKey, hx, if_true] at hc
        have hne : key x ≠ key c := fun h =>
          firstPerKey_not_seen key seen xs c hc (h ▸ hx)
        simp only [List.find?_cons, hne, decide_False]
        exact ih seen c hc
      · simp only [firstPerKey, hx, if_false, List.mem_cons] at hc
        rcases hc with rfl | hc
        · simp [List.find?_cons]
        · have hne : key x ≠ key c := fun h =>
            firstPerKey_not_seen key (key x :: seen) xs c hc (by simp [h])
          simp only [List.find?_cons, hne, decide_False]
          exact ih (key x :: seen) c hc

theorem firstPerKey_length (xs : List α) :
    (firstPerKey key [] xs).length = (xs.map key).toFinset.card := by
  have hnodup := firstPerKey_nodup key [] xs
  have hcard : ((firstPerKey key [] xs).map key).toFinset.card
      = (firstPerKey key [] xs).length := by
    rw [List.toFinset_card_of_nodup hnodup, List.length_map]
  rw [← hcard]
  congr 1
  ext k
  simp only [List.mem_toFinset]
  constructor
  · intro hk
    exact ((firstPerKey_sublist key [] xs).map key).subset hk
  · intro hk
    obtain ⟨x, hx, rfl⟩ := List.mem_map.1 hk
    rcases firstPerKey_covers key [] xs x hx with h | h
    · simp at h
    · exact h

end FirstPerKey

/-! ## Date strings are ordinary keys -/

theorem plainKey_of_head (k : String) (c : Char) (rest : List Char)
    (hk : k.data = c :: rest) (hd : c.isDigit = false) (hl : c.isLower = false)
    (hu : c ≠ '_') : plainKey k = true := by
  have hidx : arrayIndex k = none := by
    simp [arrayIndex, hk, hd]
  have hhead : ∀ name : String, ∀ d : Char, ∀ ds : List Char, name.data = d :: ds →
      (d.isLower = true ∨ d = '_') → k ≠ name := by
    intro name d ds hname hdl hkn
    rw [hkn, hname] at hk
    injection hk with h1 h2
    subst h1
    rcases hdl with h | h
    · rw [h] at hl; exact absurd hl (by decide)
    · exact hu h
  have hmem : k ∉ objectPrototypeNames := by
    intro hin
    simp only [objectPrototypeNames, List.mem_cons, List.mem_singleton, List.not_mem_nil,
      or_false] at hin
    rcases hin with h | h | h | h | h | h | h | h | h | h | h | h
    · exact hhead "constructor" 'c' _ rfl (Or.inl (by decide)) h
    · exact hhead "hasOwnProperty" 'h' _ rfl (Or.inl (by decide)) h
    · exact hhead "isPrototypeOf" 'i' _ rfl (Or.inl (by decide)) h
    · exact hhead "propertyIsEnumerable" 'p' _ rfl (Or.inl (by decide)) h
    · exact hhead "toLocaleString" 't' _ rfl (Or.inl (by decide)) h
    · exact hhead "toString" 't' _ rfl (Or.inl (by decide)) h
    · exact hhead "valueOf" 'v' _ rfl (Or.inl (by decide)) h
    · exact hhead "__proto__" '_' _ rfl (Or.inr rfl) h
    · exact hhead "__defineGetter__" '_' _ rfl (Or.inr rfl) h
    · exact hhead "__defineSetter__" '_' _ rfl (Or.inr rfl) h
    · exact hhead "__lookupGetter__" '_' _ rfl (Or.inr rfl) h
    · exact hhead "__lookupSetter__" '_' _ rfl (Or.inr rfl) h
  simp [plainKey, hidx, hmem]

theorem utcDateString_head (seconds : Int) :
    ∃ c rest, (utcDateString seconds).data = c :: rest ∧
      c.isDigit = false ∧ c.isLower = false ∧ c ≠ '_' := by
  have h0 : 0 ≤ (seconds / 86400 + 4) % 7 := Int.emod_nonneg _ (by decide)
  have h7 : (seconds / 86400 + 4) % 7 < 7 := Int.emod_lt_of_pos _ (by decide)
  obtain ⟨i, hi⟩ := Int.eq_ofNat_of_zero_le h0
  have hlt : i < 7 := by omega
  rcases hciv : civilFromDays (seconds / 86400) with ⟨y, m, d⟩
  simp only [utcDateString, hciv, hi, Int.toNat_ofNat, String.data_append]
  interval_cases i
  · exact ⟨'S', _, rfl, by decide, by decide, by decide⟩
  · exact ⟨'M', _, rfl, by decide, by decide, by decide⟩
  · exact ⟨'T', _, rfl, by decide, by decide, by decide⟩
  · exact ⟨'W', _, rfl, by decide, by decide, by decide⟩
  · exact ⟨'T', _, rfl, by decide, by decide, by decide⟩
  · exact ⟨'F', _, rfl, by decide, by decide, by decide⟩
  · exact ⟨'S', _, rfl, by decide, by decide, by decide⟩

theorem sampleHost_dates_plain (dt : JSVal) : plainKey (sampleHost.toDateString dt) = true := by
  have hinvalid : plainKey "Invalid Date" = true := by decide
  cases dt with
  | num q =>
      obtain ⟨c, rest, hk, hd, hl, hu⟩ := utcDateString_head q.num
      exact plainKey_of_head _ c rest hk hd hl hu
  | undefined => exact hinvalid
  | null => exact hinvalid
  | bool b => exact hinvalid
  | str s => exact hinvalid
  | arr items => exact hinvalid
  | obj props => exact hinvalid
  | builtin name => exact hinvalid

/-! ## The object `dailyForecasts` -/

theorem plainKey_inherited (k : String) (h : plainKey k = true) : inherited k = .undefined := by
  simp only [plainKey, Bool.and_eq_true, Bool.not_eq_true', decide_eq_false_iff_not] at h
  simp [inherited, h.2]

theorem lookupProp_truthy_iff (daily : List (String × JSVal)) (k : String)
    (hval : ∀ p ∈ daily, p.2.truthy = true) (hk : plainKey k = true) :
    (lookupProp daily k).truthy = true ↔ k ∈ daily.map Prod.fst := by
  induction daily with
  | nil => simp [lookupProp, plainKey_inherited k hk, JSVal.truthy]
  | cons p ps ih =>
      have ih' := ih (fun q hq => hval q (List.mem_cons_of_mem _ hq))
      by_cases hkp : k = p.1
      · have : lookupProp (p :: ps) k = p.2 := by
          simp [lookupProp, List.lookup, hkp]
        rw [this, hval p (List.mem_cons_self _ _)]
        simp [hkp]
      · have hbeq : (k == p.1) = false := by simpa using hkp
        have : lookupProp (p :: ps) k = lookupProp ps k := by
          simp only [lookupProp, List.lookup, hbeq]
        rw [this, ih']
        simp [hkp]

theorem setProp_new (daily : List (String × JSVal)) (k : String) (v : JSVal)
    (h : k ∉ daily.map Prod.fst) : setProp daily k v = daily ++ [(k, v)] := by
  have hany : daily.any (fun p => p.1 == k) = false := by
    rw [Bool.eq_false_iff]
    intro hc
    obtain ⟨p, hp, hpk⟩ := List.any_eq_true.1 hc
    exact h (List.mem_map.2 ⟨p, hp, by simpa using hpk⟩)
  simp [setProp, hany]

theorem objectValues_plain (props : List (String × JSVal))
    (h : ∀ p ∈ props, plainKey p.1 = true) : objectValues props = props.map Prod.snd := by
  have hidx : ∀ p ∈ props, arrayIndex p.1 = none := by
    intro p hp
    have := h p hp
    simp only [plainKey, Bool.and_eq_true, Option.isNone_iff_eq_none] at this
    exact this.1
  have h1 : (props.filterMap fun p => (arrayIndex p.1).map fun n => (n, p.2)) = [] := by
    clear h
    induction props with
    | nil => rfl
    | cons p ps ih =>
        have hp := hidx p (List.mem_cons_self _ _)
        simp only [List.filterMap_cons, hp, Option.map_none']
        exact ih (fun q hq => hidx q (List.mem_cons_of_mem _ hq))
  have h2 : (props.filter fun p => (arrayIndex p.1).isNone) = props := by
    rw [List.filter_eq_self]
    intro p hp
    simp [hidx p hp]
  simp only [objectValues, h1, h2, List.insertionSort, List.map_nil, List.nil_append]

theorem itemDate_of_get (H : Host) (item dt : JSVal) (h : item.get H "dt" = .ok dt) :
    itemDate H item = H.toDateString dt := by
  simp only [itemDate, h]

theorem groupStep_ok (H : Host) (daily out : List (String × JSVal)) (item : JSVal)
    (h : groupStep H daily item = .ok out) :
    (∃ dt, item.get H "dt" = .ok dt ∧ dt.convertible = true) ∧
    out = if (lookupProp daily (itemDate H item)).truthy then daily
          else setProp daily (itemDate H item) item := by
  unfold groupStep at h
  rcases hdt : andThen (item.get H "dt") (coerce H) with e | dt
  · simp [hdt] at h
  · obtain ⟨hget, hconv⟩ := andThen_coerce_ok H _ _ hdt
    rw [hdt] at h
    simp only at h
    rw [itemDate_of_get H item dt hget]
    refine ⟨⟨dt, hget, hconv⟩, ?_⟩
    by_cases ht : (lookupProp daily (H.toDateString dt)).truthy = true
    · simp only [ht, if_true] at h ⊢
      exact (Except.ok.inj h).symm
    · simp only [ht] at h ⊢
      exact (Except.ok.inj h).symm

theorem groupStep_returns (H : Host) (daily : List (String × JSVal)) (item dt : JSVal)
    (hget : item.get H "dt" = .ok dt) (hconv : dt.convertible = true) :
    ∃ out, groupStep H daily item = .ok out := by
  simp only [groupStep, hget, andThen, coerce, hconv, if_true]
  split <;> exact ⟨_, rfl⟩

theorem groupByDay_returns (H : Host) (items : List JSVal) (daily : List (String × JSVal))
    (h : ∀ item ∈ items, ∃ dt, item.get H "dt" = .ok dt ∧ dt.convertible = true) :
    ∃ out, groupByDay H daily items = .ok out := by
  induction items generalizing daily with
  | nil => exact ⟨daily, rfl⟩
  | cons item rest ih =>
      obtain ⟨dt, hget, hconv⟩ := h item (List.mem_cons_self _ _)
      obtain ⟨daily', hstep⟩ := groupStep_returns H daily item dt hget hconv
      obtain ⟨out, hout⟩ := ih daily' (fun x hx => h x (List.mem_cons_of_mem _ hx))
      exact ⟨out, by simp only [groupByDay, hstep, hout]⟩

theorem groupByDay_ok (H : Host) (items : List JSVal) (daily out : List (String × JSVal))
    (hrun : groupByDay H daily items = .ok out)
    (hdate : ∀ v, plainKey (H.toDateString v) = true)
    (hval : ∀ p ∈ daily, p.2.truthy = true)
    (htruthy : ∀ c ∈ firstPerKey (itemDate H) (daily.map Prod.fst) items, c.truthy = true) :
    (∀ item ∈ items, ∃ dt, item.get H "dt" = .ok dt ∧ dt.convertible = true) ∧
    out = daily ++ (firstPerKey (itemDate H) (daily.map Prod.fst) items).map
      fun x => (itemDate H x, x) := by
  induction items generalizing daily with
  | nil =>
      simp only [groupByDay] at hrun
      simp [firstPerKey, (Except.ok.inj hrun).symm]
  | cons item rest ih =>
      simp only [groupByDay] at hrun
      rcases hstep : groupStep H daily item with e | daily'
      · simp [hstep] at hrun
      rw [hstep] at hrun
      simp only at hrun
      obtain ⟨⟨dt, hget, hconv⟩, hdaily'⟩ := groupStep_ok H daily daily' item hstep
      have hk : plainKey (itemDate H item) = true := by
        rw [itemDate_of_get H item dt hget]
        exact hdate dt
      by_cases hseen : itemDate H item ∈ daily.map Prod.fst
      · have ht := (lookupProp_truthy_iff daily _ hval hk).2 hseen
        simp only [ht, if_true] at hdaily'
        subst hdaily'
        simp only [firstPerKey, hseen, if_true] at htruthy ⊢
        obtain ⟨hall, hout⟩ := ih daily' hrun hval htruthy
        refine ⟨?_, hout⟩
        intro x hx
        rcases List.mem_cons.1 hx with rfl | hx
        · exact ⟨dt, hget, hconv⟩
        · exact hall x hx
      · have ht : (lookupProp daily (itemDate H item)).truthy = false := by
          rw [Bool.eq_false_iff]
          exact fun hc => hseen ((lookupProp_truthy_iff daily _ hval hk).1 hc)
        simp only [ht, setProp_new daily _ _ hseen] at hdaily'
        simp only [firstPerKey, hseen, if_false, List.mem_cons, forall_eq_or_imp] at htruthy
        obtain ⟨hitem, hrest⟩ := htruthy
        have hcongr := firstPerKey_congr (itemDate H)
          ((daily ++ [(itemDate H item, item)]).map Prod.fst)
          (itemDate H item :: daily.map Prod.fst) rest (fun k => by simp [or_comm])
        have hval' : ∀ p ∈ daily ++ [(itemDate H item, item)], p.2.truthy = true := by
          intro p hp
          rcases List.mem_append.1 hp with hp | hp
          · exact hval p hp
          · simp only [List.mem_singleton] at hp
            subst hp
            exact hitem
        have hdaily'' : daily' = daily ++ [(itemDate H item, item)] := by
          simpa using hdaily'
        subst hdaily''
        obtain ⟨hall, hout⟩ := ih (daily ++ [(itemDate H item, item)]) hrun hval'
          (by rw [hcongr]; exact hrest)
        refine ⟨?_, ?_⟩
        · intro x hx
          rcases List.mem_cons.1 hx with rfl | hx
          · exact ⟨dt, hget, hconv⟩
          · exact hall x hx
        · rw [hout, hcongr]
          simp [firstPerKey, hseen]

/-! ## Rendering the forecast -/

theorem lookup_mem_values (props : List (String × JSVal)) (k : String) (v : JSVal)
    (h : props.lookup k = some v) : v ∈ props.map Prod.snd := by
  induction props with
  | nil => simp at h
  | cons p ps ih =>
      by_cases hk : k = p.1
      · have hb : (k == p.1) = true := by simpa using hk
        simp only [List.lookup, hb] at h
        simp [(Option.some.inj h).symm]
      · have hb : (k == p.1) = false := by simpa using hk
        simp only [List.lookup, hb] at h
        exact List.mem_cons_of_mem _ (ih h)

theorem iconClass_convertible (H : Host) (icon cls : JSVal)
    (h : getWeatherIconClass H icon = .ok cls) : cls.convertible = true := by
  unfold getWeatherIconClass at h
  cases hkey : toStr H icon with
  | error e => simp [hkey] at h
  | ok key =>
      rw [hkey] at h
      simp only at h
      have hcls := (Except.ok.inj h).symm
      subst hcls
      have hlook : (lookupProp iconMap key).convertible = true := by
        unfold lookupProp
        cases hl : iconMap.lookup key with
        | none =>
            simp only [inherited]
            split <;> rfl
        | some v =>
            have hv := lookup_mem_values iconMap key v hl
            simp only [iconMap, List.map_cons, List.map_nil, List.mem_cons,
              List.mem_singleton, List.not_mem_nil, or_false] at hv
            rcases hv with h | h | h | h | h | h | h | h | h | h | h | h | h | h | h | h | h | h
              <;> (subst h; rfl)
      unfold JSVal.orElse
      split
      · exact hlook
      · rfl

theorem wellFormedItem_obj (H : Host) (item : JSVal) (h : wellFormedItem H item = true) :
    ∃ props, item = .obj props := by
  cases item with
  | obj props => exact ⟨props, rfl⟩
  | _ => simp [wellFormedItem] at h

theorem wellFormedItem_dt (H : Host) (item : JSVal) (h : wellFormedItem H item = true) :
    item.truthy = true ∧ ∃ dt, item.get H "dt" = .ok dt ∧ dt.convertible = true := by
  obtain ⟨props, rfl⟩ := wellFormedItem_obj H item h
  simp only [wellFormedItem, Bool.and_eq_true] at h
  exact ⟨rfl, _, rfl, h.1.1⟩

theorem fieldConverts_get (H : Host) (v : JSVal) (k : String)
    (h : fieldConverts H v k = true) : ∃ x, v.get H k = .ok x ∧ x.convertible = true := by
  unfold fieldConverts at h
  cases hx : v.get H k with
  | error e => simp [hx] at h
  | ok x => exact ⟨x, rfl, by simpa [hx] using h⟩

theorem forecastElement_ok (H : Host) (item : JSVal) (h : wellFormedItem H item = true) :
    ∃ e, forecastElement H item = .ok e := by
  obtain ⟨props, rfl⟩ := wellFormedItem_obj H item h
  simp only [wellFormedItem, Bool.and_eq_true] at h
  obtain ⟨⟨hdt, hw⟩, hm⟩ := h
  rcases hw0 : (lookupProp props "weather").get H "0" with e | w
  · simp [hw0] at hw
  · simp only [hw0, Bool.and_eq_true] at hw
    obtain ⟨icon, hicon, hiconc⟩ := fieldConverts_get H w "icon" hw.1
    obtain ⟨desc, hdesc, hdescc⟩ := fieldConverts_get H w "description" hw.2
    obtain ⟨temp, htemp, htempc⟩ := fieldConverts_get H _ "temp" hm
    have hget : ∀ k, (JSVal.obj props).get H k = .ok (lookupProp props k) := fun _ => rfl
    rcases hcls : getWeatherIconClass H icon with e | cls
    · simp [getWeatherIconClass, toStr, hiconc] at hcls
    · have hclsc := iconClass_convertible H icon cls hcls
      simp only [forecastElement, JSVal.path, hget, hw0, hicon, hdesc, htemp, andThen,
        coerce, toStr, hdt, hcls, hclsc, hdescc, htempc, if_true]
      exact ⟨_, rfl⟩

theorem runAssignments_appends (H : Host) (items : List JSVal) (s : App)
    (h : ∀ item ∈ items, ∃ e, forecastElement H item = .ok e) :
    ∃ elems, List.Forall₂ (fun item e => forecastElement H item = .ok e) items elems ∧
      runAssignments (items.map fun item => (forecastElement H item).map appendChild) s
        = (.ok (), { s with forecastList := s.forecastList ++ elems }) := by
  induction items generalizing s with
  | nil => exact ⟨[], List.Forall₂.nil, by simp [runAssignments]⟩
  | cons item rest ih =>
      obtain ⟨e, he⟩ := h item (List.mem_cons_self _ _)
      obtain ⟨elems, hall, hrun⟩ :=
        ih (appendChild e s) (fun x hx => h x (List.mem_cons_of_mem _ hx))
      refine ⟨e :: elems, List.Forall₂.cons he hall, ?_⟩
      have hmap : (Except.ok e : Except JSError ForecastItem).map appendChild
          = .ok (appendChild e) := rfl
      rw [List.map_cons, he, hmap]
      simp only [runAssignments]
      rw [hrun]
      simp [appendChild]

theorem runAssignments_appends_ok (H : Host) (items : List JSVal) (s : App)
    (h : (runAssignments (items.map fun item =>
      (forecastElement H item).map appendChild) s).1 = .ok ()) :
    ∀ item ∈ items, ∃ e, forecastElement H item = .ok e := by
  induction items generalizing s with
  | nil => intro item hitem; simp at hitem
  | cons item rest ih =>
      rw [List.map_cons] at h
      cases he : forecastElement H item with
      | error e =>
          rw [he] at h
          simp [Except.map, runAssignments] at h
      | ok e =>
          rw [he] at h
          have hmap : (Except.ok e : Except JSError ForecastItem).map appendChild
              = .ok (appendChild e) := rfl
          rw [hmap] at h
          simp only [runAssignments] at h
          intro x hx
          rcases List.mem_cons.1 hx with rfl | hx
          · exact ⟨e, he⟩
          · exact ih (appendChild e s) h x hx

theorem firstPerKey_truthy (H : Host) (items : List JSVal)
    (h : ∀ c ∈ items,
      items.find? (fun x => decide (itemDate H x = itemDate H c)) = some c → c.truthy = true) :
    ∀ c ∈ firstPerKey (itemDate H) [] items, c.truthy = true :=
  fun c hc => h c ((firstPerKey_sublist (itemDate H) [] items).subset hc)
    (firstPerKey_first (itemDate H) [] items c hc)

theorem forecastArray_ok (H : Host) (data : JSVal) (items fa : List JSVal)
    (hlist : data.get H "list" = .ok (.arr items))
    (hdate : ∀ v, plainKey (H.toDateString v) = true)
    (htruthy : ∀ c ∈ firstPerKey (itemDate H) [] items, c.truthy = true)
    (hrun : forecastArray H data = .ok fa) :
    fa = (firstPerKey (itemDate H) [] items).take 5 := by
  simp only [forecastArray, hlist] at hrun
  rcases hgroup : groupByDay H [] items with e | daily
  · simp [hgroup] at hrun
  rw [hgroup] at hrun
  simp only at hrun
  obtain ⟨hall, hdaily⟩ := groupByDay_ok H items [] daily hgroup hdate (by simp)
    (by simpa using htruthy)
  simp only [List.map_nil, List.nil_append] at hdaily
  have hplain : ∀ p ∈ daily, plainKey p.1 = true := by
    intro p hp
    rw [hdaily] at hp
    obtain ⟨x, hx, rfl⟩ := List.mem_map.1 hp
    obtain ⟨dt, hget, -⟩ := hall x ((firstPerKey_sublist (itemDate H) [] items).subset hx)
    simp only [itemDate_of_get H x dt hget]
    exact hdate dt
  rw [objectValues_plain daily hplain, hdaily, List.map_map] at hrun
  rw [← Except.ok.inj hrun]
  congr 1
  exact List.map_id _

theorem displayForecast_ok_parts (H : Host) (data : JSVal) (s : App)
    (h : (displayForecast H data s).1 = .ok ()) :
    ∃ fa, forecastArray H data = .ok fa ∧
      (runAssignments (fa.map fun item => (forecastElement H item).map appendChild)
        { s with forecastList := [] }).1 = .ok () := by
  unfold displayForecast at h
  cases hfa : forecastArray H data with
  | error e => simp [hfa] at h
  | ok fa =>
      rw [hfa] at h
      simp only at h
      refine ⟨fa, rfl, ?_⟩
      rcases hrun : runAssignments
        (fa.map fun item => (forecastElement H item).map appendChild)
        { s with forecastList := [] } with ⟨x, t⟩
      rw [hrun] at h
      cases x with
      | error e => simp at h
      | ok u => rfl

theorem forecastArray_returns (H : Host) (data : JSVal) (items : List JSVal)
    (hlist : data.get H "list" = .ok (.arr items))
    (h : ∀ item ∈ items, ∃ dt, item.get H "dt" = .ok dt ∧ dt.convertible = true) :
    ∃ fa, forecastArray H data = .ok fa := by
  obtain ⟨daily, hdaily⟩ := groupByDay_returns H items [] h
  simp only [forecastArray, hlist, hdaily]
  exact ⟨_, rfl⟩

/-- C1, amended: in a browser whose date strings are ordinary property keys
(as every result of `toDateString` is), for every forecast response list on
which `displayForecast` does not throw and in which the first item of each
date is truthy, `displayForecast` renders the first five of `chosen`, where
`chosen` holds, in list order, exactly one item per distinct date string,
namely the first list item with that date; the number of rendered items is the
minimum of five and the number of distinct dates, and the forecast container
is shown.  Both conditions hold when every item has the documented shape. -/
theorem displayForecast_first_per_date (H : Host) (data : JSVal) (items : List JSVal)
    (s s₀ : App) (hlist : data.get H "list" = .ok (.arr items))
    (hdate : ∀ v, plainKey (H.toDateString v) = true) :
    ((displayForecast H data s₀).1 = .ok () →
      (∀ c ∈ items,
        items.find? (fun x => decide (itemDate H x = itemDate H c)) = some c →
          c.truthy = true) →
      ∃ (chosen : List JSVal) (elems : List ForecastItem),
        displayForecast H data s
          = (.ok (), { s with forecastList := elems, forecastContainer := "block" }) ∧
        List.Forall₂ (fun item e => forecastElement H item = .ok e) (chosen.take 5) elems ∧
        chosen.Sublist items ∧
        (chosen.map (itemDate H)).Nodup ∧
        (∀ item ∈ items, itemDate H item ∈ chosen.map (itemDate H)) ∧
        (∀ c ∈ chosen,
          items.find? (fun x => decide (itemDate H x = itemDate H c)) = some c) ∧
        elems.length = min 5 (items.map (itemDate H)).toFinset.card) ∧
    ((∀ item ∈ items, wellFormedItem H item = true) →
      (displayForecast H data s₀).1 = .ok () ∧
      ∀ c ∈ items,
        items.find? (fun x => decide (itemDate H x = itemDate H c)) = some c →
          c.truthy = true) := by
  have hsub := firstPerKey_sublist (itemDate H) [] items
  constructor
  · intro hret htruthy
    rw [displayForecast_fst H data s₀ s] at hret
    obtain ⟨fa, hfa, hrun⟩ := displayForecast_ok_parts H data s hret
    have hfa' := forecastArray_ok H data items fa hlist hdate
      (firstPerKey_truthy H items htruthy) hfa
    subst hfa'
    obtain ⟨elems, hall, hrun'⟩ := runAssignments_appends H
      ((firstPerKey (itemDate H) [] items).take 5) { s with forecastList := [] }
      (runAssignments_appends_ok H _ _ hrun)
    refine ⟨firstPerKey (itemDate H) [] items, elems, ?_, hall, hsub,
      firstPerKey_nodup (itemDate H) [] items, ?_, firstPerKey_first (itemDate H) [] items, ?_⟩
    · simp only [displayForecast, hfa, hrun', List.nil_append]
    · intro item hitem
      rcases firstPerKey_covers (itemDate H) [] items item hitem with h | h
      · simp at h
      · exact h
    · rw [← hall.length_eq, List.length_take, firstPerKey_length]
  · intro hwell
    have htruthy : ∀ c ∈ items,
        items.find? (fun x => decide (itemDate H x = itemDate H c)) = some c →
          c.truthy = true :=
      fun c hc _ => (wellFormedItem_dt H c (hwell c hc)).1
    refine ⟨?_, htruthy⟩
    obtain ⟨fa, hfa⟩ := forecastArray_returns H data items hlist
      (fun item hitem => (wellFormedItem_dt H item (hwell item hitem)).2)
    have hfa' := forecastArray_ok H data items fa hlist hdate
      (firstPerKey_truthy H items htruthy) hfa
    subst hfa'
    obtain ⟨elems, -, hrun⟩ := runAssignments_appends H
      ((firstPerKey (itemDate H) [] items).take 5) { s₀ with forecastList := [] }
      (fun item hitem => forecastElement_ok H item
        (hwell item (hsub.subset (List.mem_of_mem_take hitem))))
    simp only [displayForecast, hfa, hrun]

theorem displayForecast_first_per_date_witness :
    (displayForecast sampleHost sampleForecast blankApp).1 = .ok () ∧
    (displayForecast sampleHost sampleForecast blankApp).2.forecastContainer = "block" ∧
    (displayForecast sampleHost sampleForecast blankApp).2.forecastList.length
      = min 5 (([forecastEntry 1699963200 "01d", forecastEntry 1699974000 "01n",
          forecastEntry 1700049600 "02d", forecastEntry 1700136000 "03d",
          forecastEntry 1700146800 "09d", forecastEntry 1700157600 "10d",
          forecastEntry 1700222400 "11d", forecastEntry 1700308800 "13d",
          forecastEntry 1700395200 "50d"].map (itemDate sampleHost)).toFinset.card) ∧
    (displayForecast sampleHost sampleForecast blankApp).2.forecastList.map
        (fun e => (e.dayName, e.monthDay, e.iconClass))
      = [("Tue", "Nov 14", "fas fa-sun"), ("Wed", "Nov 15", "fas fa-cloud-sun"),
         ("Thu", "Nov 16", "fas fa-cloud"), ("Fri", "Nov 17", "fas fa-bolt"),
         ("Sat", "Nov 18", "fas fa-snowflake")] := by
  have h := displayForecast_first_per_date sampleHost sampleForecast
    [forecastEntry 1699963200 "01d", forecastEntry 1699974000 "01n",
     forecastEntry 1700049600 "02d", forecastEntry 1700136000 "03d",
     forecastEntry 1700146800 "09d", forecastEntry 1700157600 "10d",
     forecastEntry 1700222400 "11d", forecastEntry 1700308800 "13d",
     forecastEntry 1700395200 "50d"]
    blankApp blankApp rfl sampleHost_dates_plain
  obtain ⟨hret, htruthy⟩ := h.2 (by decide)
  obtain ⟨chosen, elems, hrun, -, -, -, -, -, hlen⟩ := h.1 hret htruthy
  refine ⟨hret, ?_, ?_, rfl⟩
  · rw [hrun]
  · rw [hrun]
    exact hlen

/-- C1 as stated fails: the list of `brokenForecast` has one item, hence one
distinct date, and its `weather` array is empty; `displayForecast` throws on
it after emptying the forecast list, so nothing is rendered, and `getForecast`
hides the forecast container. -/
theorem displayForecast_throws_on_broken_item :
    brokenForecast.get sampleHost "list"
      = .ok (.arr [.obj [("dt", .num 1699963200), ("main", .obj [("temp", .num 9)]),
                         ("weather", .arr [])]]) ∧
    (displayForecast sampleHost brokenForecast blankApp).1
      = .error ⟨"Cannot read properties of undefined (reading 'icon')"⟩ ∧
    (displayForecast sampleHost brokenForecast blankApp).2.forecastList.length = 0 ∧
    (getForecast sampleHost brokenForecastNet (.num 51) (.num 0) blankApp).forecastContainer
      = "none" ∧
    min 5 (([JSVal.obj [("dt", .num 1699963200), ("main", .obj [("temp", .num 9)]),
        ("weather", .arr [])]].map (itemDate sampleHost)).toFinset.card) = 1 :=
  ⟨rfl, rfl, rfl, rfl, by simp⟩

/-! ## The view a lookup ends in does not depend on the view it started from -/

theorem showError_view (message : String) (s₁ s₂ : App) :
    (showError message s₁).view = (showError message s₂).view := by
  simp [App.view, showError]

theorem appends_forecastList (H : Host) (items : List JSVal) (s₁ s₂ : App)
    (h : s₁.forecastList = s₂.forecastList) :
    (runAssignments (items.map fun item =>
        (forecastElement H item).map appendChild) s₁).2.forecastList
      = (runAssignments (items.map fun item =>
        (forecastElement H item).map appendChild) s₂).2.forecastList := by
  induction items generalizing s₁ s₂ with
  | nil => exact h
  | cons item rest ih =>
      rw [List.map_cons]
      cases forecastElement H item with
      | error e => exact h
      | ok e =>
          have hmap : (Except.ok e : Except JSError ForecastItem).map appendChild
              = .ok (appendChild e) := rfl
          rw [hmap]
          simp only [runAssignments]
          exact ih (appendChild e s₁) (appendChild e s₂) (by simp [appendChild, h])

theorem forecastSettled_forecast (H : Host) (r : FetchResult) (s₁ s₂ : App) :
    ((forecastSettled H r s₁).forecastContainer = "none" ∧
      (forecastSettled H r s₂).forecastContainer = "none") ∨
    ((forecastSettled H r s₁).forecastContainer = "block" ∧
      (forecastSettled H r s₂).forecastContainer = "block" ∧
      (forecastSettled H r s₁).forecastList = (forecastSettled H r s₂).forecastList) := by
  cases r with
  | rejected e => exact Or.inl ⟨rfl, rfl⟩
  | response resp =>
      by_cases hok : resp.ok = true
      · cases hjson : resp.json with
        | error e =>
            left
            simp [forecastSettled, forecastAttempt, hok, hjson]
        | ok data =>
            have hs : ∀ s, forecastSettled H (.response resp) s
                = match displayForecast H data s with
                  | (.ok _, s') => s'
                  | (.error _, s') => { s' with forecastContainer := "none" } := by
              intro s
              simp [forecastSettled, forecastAttempt, hok, hjson]
            rw [hs s₁, hs s₂]
            unfold displayForecast
            cases forecastArray H data with
            | error e => exact Or.inl ⟨rfl, rfl⟩
            | ok items =>
                have hfst := runAssignments_fst
                  (items.map fun item => (forecastElement H item).map appendChild)
                  { s₁ with forecastList := [] } { s₂ with forecastList := [] }
                have hlist := appends_forecastList H items
                  { s₁ with forecastList := [] } { s₂ with forecastList := [] } rfl
                simp only
                rcases h1 : runAssignments
                  (items.map fun item => (forecastElement H item).map appendChild)
                  { s₁ with forecastList := [] } with ⟨x₁, t₁⟩
                rcases h2 : runAssignments
                  (items.map fun item => (forecastElement H item).map appendChild)
                  { s₂ with forecastList := [] } with ⟨x₂, t₂⟩
                rw [h1, h2] at hfst hlist
                simp only at hfst hlist
                subst hfst
                cases x₁ with
                | error e => exact Or.inl ⟨rfl, rfl⟩
                | ok u => exact Or.inr ⟨rfl, rfl, hlist⟩
      · left
        simp [forecastSettled, forecastAttempt, hok]

theorem forecastSettled_view (H : Host) (r : FetchResult) (s₁ s₂ : App)
    (hl : s₁.loading = s₂.loading) (hw : s₁.weatherCard = s₂.weatherCard)
    (he₁ : s₁.errorMessage = "none") (he₂ : s₂.errorMessage = "none")
    (hc : s₁.cardView = s₂.cardView) :
    (forecastSettled H r s₁).view = (forecastSettled H r s₂).view := by
  obtain ⟨hsh₁, hcv₁⟩ := forecastSettled_frame H r s₁
  obtain ⟨hsh₂, hcv₂⟩ := forecastSettled_frame H r s₂
  simp only [App.shell, Prod.mk.injEq] at hsh₁ hsh₂
  obtain ⟨-, a1, a2, a3, -⟩ := hsh₁
  obtain ⟨-, b1, b2, b3, -⟩ := hsh₂
  have hcard : (forecastSettled H r s₁).cardView = (forecastSettled H r s₂).cardView := by
    rw [hcv₁, hcv₂, hc]
  rcases forecastSettled_forecast H r s₁ s₂ with ⟨f1, f2⟩ | ⟨f1, f2, f3⟩
  · simp [App.view, a1, a2, a3, b1, b2, b3, hl, hw, he₁, he₂, hcard, f1, f2]
  · simp [App.view, a1, a2, a3, b1, b2, b3, hl, hw, he₁, he₂, hcard, f1, f2, f3]

theorem weatherAttempt_ok (H : Host) (r : FetchResult) (cityName countryName : JSVal)
    (s t : App) (h : weatherAttempt H r cityName countryName s = (.ok (), t)) :
    ∃ data, ∀ s', weatherAttempt H r cityName countryName s'
      = displayWeather H data cityName countryName s' := by
  cases r with
  | rejected e => simp [weatherAttempt] at h
  | response resp =>
      by_cases hok : resp.ok = true
      · cases hjson : resp.json with
        | error e => simp [weatherAttempt, hok, hjson] at h
        | ok data => exact ⟨data, fun s' => by simp [weatherAttempt, hok, hjson]⟩
      · simp [weatherAttempt, hok] at h

theorem view_hidden_forecast (a b : App) (hl : a.loading = b.loading)
    (hw : a.weatherCard = b.weatherCard) (he₁ : a.errorMessage = "none")
    (he₂ : b.errorMessage = "none") (hc : a.cardView = b.cardView)
    (hf₁ : a.forecastContainer = "none") (hf₂ : b.forecastContainer = "none") :
    a.view = b.view := by
  simp [App.view, hl, hw, he₁, he₂, hc, hf₁, hf₂]

theorem getForecast_view (H : Host) (net : Net) (lat lon : JSVal) (s₁ s₂ : App)
    (hl : s₁.loading = s₂.loading) (hw : s₁.weatherCard = s₂.weatherCard)
    (he₁ : s₁.errorMessage = "none") (he₂ : s₂.errorMessage = "none")
    (hc : s₁.cardView = s₂.cardView) :
    (getForecast H net lat lon s₁).view = (getForecast H net lat lon s₂).view := by
  unfold getForecast
  cases Request.url H (.forecast lat lon) with
  | error e =>
      exact view_hidden_forecast { s₁ with forecastContainer := "none" }
        { s₂ with forecastContainer := "none" } hl hw he₁ he₂ hc rfl rfl
  | ok u => exact forecastSettled_view H _ _ _ hl hw he₁ he₂ hc

theorem getWeatherByCoords_view (H : Host) (net : Net) (lat lon cityName countryName : JSVal)
    (s₁ s₂ : App) :
    (getWeatherByCoords H net lat lon cityName countryName s₁).view
      = (getWeatherByCoords H net lat lon cityName countryName s₂).view := by
  have hfst := weatherAttempt_fst H (net (.weather lat lon)) (defaultNull cityName)
    (defaultNull countryName) (recordFetch (.weather lat lon) s₁)
    (recordFetch (.weather lat lon) s₂)
  unfold getWeatherByCoords
  cases Request.url H (.weather lat lon) with
  | error e => exact showError_view _ s₁ s₂
  | ok url =>
      simp only
      rcases h1 : weatherAttempt H (net (.weather lat lon)) (defaultNull cityName)
        (defaultNull countryName) (recordFetch (.weather lat lon) s₁) with ⟨x₁, t₁⟩
      rcases h2 : weatherAttempt H (net (.weather lat lon)) (defaultNull cityName)
        (defaultNull countryName) (recordFetch (.weather lat lon) s₂) with ⟨x₂, t₂⟩
      rw [h1, h2] at hfst
      simp only at hfst
      subst hfst
      cases x₁ with
      | error e => exact showError_view _ t₁ t₂
      | ok u =>
          obtain ⟨data, hdata⟩ := weatherAttempt_ok H _ _ _ _ _ h1
          rw [hdata] at h1 h2
          obtain ⟨n₁, c₁, i₁, t₁', d₁, v₁, u₁, w₁, f₁, p₁,
            e1, e2, e3, e4, e5, e6, e7, e8, e9, e10, ht₁⟩ := displayWeather_ok H _ _ _ _ _ h1
          obtain ⟨n₂, c₂, i₂, t₂', d₂, v₂, u₂, w₂, f₂, p₂,
            g1, g2, g3, g4, g5, g6, g7, g8, g9, g10, ht₂⟩ := displayWeather_ok H _ _ _ _ _ h2
          rw [e1] at g1; rw [e2] at g2; rw [e3] at g3; rw [e4] at g4; rw [e5] at g5
          rw [e6] at g6; rw [e7] at g7; rw [e8] at g8; rw [e9] at g9; rw [e10] at g10
          cases g1; cases g2; cases g3; cases g4; cases g5
          cases g6; cases g7; cases g8; cases g9; cases g10
          apply getForecast_view <;> simp [ht₁, ht₂, recordFetch, showWeatherCard, App.cardView]

theorem finish_initial_view (H : Host) (env : Env) (lookup : Lookup) (s₁ s₂ : App) :
    (finish H env lookup.initial s₁).view = (finish H env lookup.initial s₂).view := by
  cases lookup with
  | byName city =>
      simp only [Lookup.initial, finish]
      cases geocodeSettled H (env.net (.geocode city)) with
      | none => exact showError_view _ s₁ s₂
      | some c => exact getWeatherByCoords_view H env.net _ _ _ _ s₁ s₂
  | byDevice =>
      simp only [Lookup.initial, finish]
      cases env.location with
      | position latitude longitude => exact getWeatherByCoords_view H env.net _ _ _ _ s₁ s₂
      | error code => exact showError_view _ s₁ s₂

theorem run_eq_finish (H : Host) (env : Env) (lookup : Lookup) (s : App) :
    lookup.run H env s = finish H env lookup.initial (lookup.start s) := by
  cases lookup with
  | byName city =>
      simp only [Lookup.run, Lookup.initial, Lookup.start, finish, getWeatherByCity,
        getCityCoordinates]
      cases geocodeSettled H (env.net (.geocode city)) <;> rfl
  | byDevice =>
      simp only [Lookup.run, Lookup.initial, Lookup.start, finish, getCurrentLocationWeather]
      cases env.location <;> rfl

/-! ## Running a suspended lookup to its end -/

theorem settleNext_pending (H : Host) (env : Env) (id : Nat) (σ : Sys) (p : Pending)
    (hp : σ.tasks.getD id none = some p) :
    settleNext H env id σ
      = ⟨(resume H p (env.answer p) σ.app).1,
         σ.tasks.set id (resume H p (env.answer p) σ.app).2⟩ := by
  simp only [settleNext, Sys.step, hp]

theorem settleNext_finished (H : Host) (env : Env) (id : Nat) (σ : Sys)
    (hp : σ.tasks.getD id none = none) : settleNext H env id σ = σ := by
  simp only [settleNext, hp]

theorem getD_set_self (tasks : List (Option Pending)) (id : Nat) (x : Option Pending)
    (h : id < tasks.length) : (tasks.set id x).getD id none = x := by
  rw [List.getD_eq_getElem?_getD, List.getElem?_set_self h]
  rfl

theorem set_pending (tasks : List (Option Pending)) (id : Nat) (p : Pending)
    (hp : tasks.getD id none = some p) : tasks.set id (some p) = tasks := by
  induction tasks generalizing id with
  | nil => simp at hp
  | cons t ts ih =>
      cases id with
      | zero =>
          simp only [List.getD_cons_zero] at hp
          simp only [List.set_cons_zero, hp]
      | succ n =>
          simp only [List.getD_cons_succ] at hp
          simp only [List.set_cons_succ, ih n hp]

theorem settleNext_none (H : Host) (env : Env) (id : Nat) (app : App)
    (tasks : List (Option Pending)) (h : id < tasks.length) :
    settleNext H env id ⟨app, tasks.set id none⟩ = ⟨app, tasks.set id none⟩ :=
  settleNext_finished H env id _ (getD_set_self tasks id none h)

theorem settleNext_some (H : Host) (env : Env) (id : Nat) (app : App)
    (tasks : List (Option Pending)) (p : Pending) (h : id < tasks.length) :
    settleNext H env id ⟨app, tasks.set id (some p)⟩
      = ⟨(resume H p (env.answer p) app).1,
         tasks.set id (resume H p (env.answer p) app).2⟩ := by
  rw [settleNext_pending H env id ⟨app, tasks.set id (some p)⟩ p
    (getD_set_self tasks id _ h)]
  simp only [List.set_set]

theorem settle_forecast_entry (H : Host) (env : Env) (id : Nat) (app : App)
    (tasks : List (Option Pending)) (lat lon : JSVal) (h : id < tasks.length) :
    settleNext H env id
        ⟨(enterForecast H lat lon app).1, tasks.set id (enterForecast H lat lon app).2⟩
      = ⟨getForecast H env.net lat lon app, tasks.set id none⟩ := by
  unfold enterForecast getForecast
  cases Request.url H (.forecast lat lon) with
  | error e => exact settleNext_none H env id _ tasks h
  | ok u =>
      simp only
      rw [settleNext_some H env id _ tasks _ h]
      simp only [resume, Env.answer]

theorem settle_weather (H : Host) (env : Env) (id : Nat) (app : App)
    (tasks : List (Option Pending)) (lat lon cityName countryName : JSVal)
    (h : id < tasks.length) :
    settleNext H env id (settleNext H env id
        ⟨app, tasks.set id (some (.weather lat lon cityName countryName))⟩)
      = ⟨finish H env (.weather lat lon cityName countryName) app, tasks.set id none⟩ := by
  rw [settleNext_some H env id _ tasks _ h]
  simp only [resume, Env.answer, finish]
  rcases weatherAttempt H (env.net (.weather lat lon)) cityName countryName app with ⟨x, t⟩
  cases x with
  | error e => exact settleNext_none H env id _ tasks h
  | ok u => exact settle_forecast_entry H env id t tasks lat lon h

theorem settle_coords_entry (H : Host) (env : Env) (id : Nat) (app : App)
    (tasks : List (Option Pending)) (lat lon cityName countryName : JSVal)
    (h : id < tasks.length) :
    settleNext H env id (settleNext H env id
        ⟨(enterCoords H lat lon cityName countryName app).1,
         tasks.set id (enterCoords H lat lon cityName countryName app).2⟩)
      = ⟨getWeatherByCoords H env.net lat lon cityName countryName app,
         tasks.set id none⟩ := by
  unfold enterCoords getWeatherByCoords
  cases Request.url H (.weather lat lon) with
  | error e =>
      simp only
      rw [settleNext_none H env id _ tasks h]
      exact settleNext_none H env id _ tasks h
  | ok u =>
      simp only
      rw [settle_weather H env id _ tasks _ _ _ _ h]
      simp only [finish]

theorem complete_set (H : Host) (env : Env) (id : Nat) (app : App)
    (tasks : List (Option Pending)) (p : Pending) (hid : id < tasks.length) :
    complete H env id ⟨app, tasks.set id (some p)⟩
      = ⟨finish H env p app, tasks.set id none⟩ := by
  unfold complete
  cases p with
  | forecast lat lon =>
      rw [settleNext_some H env id _ tasks _ hid]
      simp only [resume, Env.answer, finish]
      rw [settleNext_none H env id _ tasks hid]
      exact settleNext_none H env id _ tasks hid
  | weather lat lon cityName countryName =>
      rw [settle_weather H env id _ tasks _ _ _ _ hid]
      exact settleNext_none H env id _ tasks hid
  | geocode city =>
      rw [settleNext_some H env id _ tasks _ hid]
      simp only [resume, Env.answer, finish]
      cases geocodeSettled H (env.net (.geocode city)) with
      | none =>
          simp only
          rw [settleNext_none H env id _ tasks hid]
          exact settleNext_none H env id _ tasks hid
      | some c =>
          simp only
          exact settle_coords_entry H env id _ tasks _ _ _ _ hid
  | position =>
      rw [settleNext_some H env id _ tasks _ hid]
      simp only [Env.answer, finish]
      cases env.location with
      | position latitude longitude =>
          simp only [resume]
          exact settle_coords_entry H env id _ tasks _ _ _ _ hid
      | error code =>
          simp only [resume]
          rw [settleNext_none H env id _ tasks hid]
          exact settleNext_none H env id _ tasks hid

theorem complete_eq (H : Host) (env : Env) (id : Nat) (σ : Sys) (p : Pending)
    (hp : σ.tasks.getD id none = some p) (hid : id < σ.tasks.length) :
    complete H env id σ = ⟨finish H env p σ.app, σ.tasks.set id none⟩ := by
  have h := complete_set H env id σ.app σ.tasks p hid
  rw [set_pending σ.tasks id p hp] at h
  exact h

theorem completed_lookup_view (H : Host) (env : Env) (id : Nat) (σ : Sys) (lookup : Lookup)
    (s₀ : App) (hp : σ.tasks.getD id none = some lookup.initial) (hid : id < σ.tasks.length) :
    (complete H env id σ).app.view = (lookup.run H env s₀).view := by
  rw [complete_eq H env id σ lookup.initial hp hid, run_eq_finish]
  exact finish_initial_view H env lookup _ _

theorem run_two_starts (H : Host) (first second : Lookup) (s : App) :
    Sys.run H ⟨s, []⟩ [.start first, .start second]
      = ⟨second.start (first.start s), [some first.initial, some second.initial]⟩ :=
  rfl

/-- C9, amended: the script keeps no sequence number and discards no
completion.  For every pair of lookups A and B, each by city name or by device
location, when A is started, B is started before anything A waits for has
arrived, everything B waits for arrives, and only then everything A waits for
arrives, both lookups run to their end and the final view is the one a lookup
of A alone ends in (from any state): the lookup that resolves last decides the
view, and the most recently started one is overwritten. -/
theorem last_settled_lookup_wins (H : Host) (envA envB : Env) (A B : Lookup) (s s₀ : App) :
    (complete H envA 0
      (complete H envB 1 (Sys.run H ⟨s, []⟩ [.start A, .start B]))).tasks = [none, none] ∧
    (complete H envA 0
      (complete H envB 1 (Sys.run H ⟨s, []⟩ [.start A, .start B]))).app.view
      = (A.run H envA s₀).view := by
  have h1 : complete H envB 1 ⟨B.start (A.start s), [some A.initial, some B.initial]⟩
      = ⟨finish H envB B.initial (B.start (A.start s)), [some A.initial, none]⟩ :=
    complete_eq H envB 1 _ B.initial rfl (by simp)
  have h2 : complete H envA 0
      ⟨finish H envB B.initial (B.start (A.start s)), [some A.initial, none]⟩
      = ⟨finish H envA A.initial (finish H envB B.initial (B.start (A.start s))),
         [none, none]⟩ :=
    complete_eq H envA 0 _ A.initial rfl (by simp)
  rw [run_two_starts, h1, h2]
  refine ⟨rfl, ?_⟩
  rw [run_eq_finish]
  exact finish_initial_view H envA A _ _

/-- C9 as stated fails: in `overtakenSchedule` the lookup of Paris is started
first, the lookup of London is started before any fetch of the first settles,
and the fetches of the Paris lookup settle after those of the London lookup;
the final view is the outcome of the Paris lookup and not the outcome of the
London lookup, the most recently started one. -/
theorem superseded_lookup_overwrites :
    (Sys.run sampleHost ⟨blankApp, []⟩ overtakenSchedule).app.view
      = (getWeatherByCity sampleHost parisNet "Paris" blankApp).view ∧
    (Sys.run sampleHost ⟨blankApp, []⟩ overtakenSchedule).app.cityName = .str "Paris" ∧
    (Sys.run sampleHost ⟨blankApp, []⟩ overtakenSchedule).app.weatherCard = "block" ∧
    (getWeatherByCity sampleHost londonNet "London" blankApp).cityName = .str "London" ∧
    (Sys.run sampleHost ⟨blankApp, []⟩ overtakenSchedule).app.view
      ≠ (getWeatherByCity sampleHost londonNet "London" blankApp).view := by
  refine ⟨rfl, rfl, rfl, rfl, ?_⟩
  intro h
  have hcard := congrArg (fun v : View => v.card.map CardView.cityName) h
  have hl : (fun v : View => v.card.map CardView.cityName)
      (Sys.run sampleHost ⟨blankApp, []⟩ overtakenSchedule).app.view
      = some (.str "Paris") := rfl
  have hr : (fun v : View => v.card.map CardView.cityName)
      (getWeatherByCity sampleHost londonNet "London" blankApp).view
      = some (.str "London") := rfl
  rw [hl, hr] at hcard
  injection hcard with hcard
  injection hcard with hcard
  exact absurd hcard (by decide)

theorem interleaved_lookups_mix :
    (Sys.run sampleHost ⟨blankApp, []⟩ interleavedSchedule).tasks = [none, none] ∧
    (Sys.run sampleHost ⟨blankApp, []⟩ interleavedSchedule).app.weatherCard = "block" ∧
    (Sys.run sampleHost ⟨blankApp, []⟩ interleavedSchedule).app.cityName = .str "London" ∧
    (Sys.run sampleHost ⟨blankApp, []⟩ interleavedSchedule).app.forecastContainer = "block" ∧
    (Sys.run sampleHost ⟨blankApp, []⟩ interleavedSchedule).app.forecastList
      = (getWeatherByCity sampleHost parisNet "Paris" blankApp).forecastList ∧
    (Sys.run sampleHost ⟨blankApp, []⟩ interleavedSchedule).app.forecastList.length = 1 ∧
    (getWeatherByCity sampleHost londonNet "London" blankApp).forecastList.length = 0 :=
  ⟨rfl, rfl, rfl, rfl, rfl, rfl, rfl⟩

/-! ## A lookup by name continues as a lookup by coordinates -/

theorem getWeatherByCity_of_coords (H : Host) (net : Net) (city : String) (s : App)
    (c : Coords) (h : geocodeSettled H (net (.geocode city)) = some c) :
    getWeatherByCity H net city s
      = getWeatherByCoords H net c.lat c.lon c.name c.country
          (recordFetch (.geocode city) (showLoading s)) := by
  simp only [getWeatherByCity, getCityCoordinates, h]

end WeatherApp
